import Mathlib

/-!
Verification development for the zpp_compiler toolchain
(lexer → parser → IR generator → interpreter, plus the semantic analyzer).

The C++ sources are shallowly embedded as executable Lean definitions:

* `compiler/src/lexer.cpp`   → namespace `Zpp.Lexer`
* `compiler/src/parser.cpp`  → namespace `Zpp.Parser`
* `compiler/src/scematic.cpp`→ namespace `Zpp.Sem`
* `compiler/src/ir.cpp`      → namespace `Zpp.IRGen`
* `compiler/src/main.cpp`    → namespace `Zpp.Interp` (interpretIR, main)

Modelling conventions:

* C++ `std::string` is modelled as `List Char` (`Zpp.Str`); source text is a
  `List Char` and the lexer's `(position, line, column)` cursor is modelled by
  the remaining suffix of the input together with `line` and `column`.
* C++ `int` is modelled as unbounded `Int` (no claim exercises overflow);
  `/` and `%` on C++ ints truncate toward zero, so they are modelled with
  `Int.tdiv` / `Int.tmod`.
* C++ `double` is modelled as `Rat`; the only property proved about floats is
  truncation toward zero (`Rat.trunc`), which is exact in both models.
* `std::map<K,V>` is modelled as an association list; `operator[]`'s
  default-construction of a missing value is modelled by a lookup that
  returns the default-constructed value (for `Value` this is `int 0`, the
  first variant alternative, value-initialized).
* Unbounded loops (the interpreter's dispatch loop, `tokenize`, recursive
  descent) take an explicit fuel parameter so that all definitions compute
  by kernel reduction; fuel-sufficiency is part of the theorems.
* C++ exceptions are modelled with `Except`.
-/

namespace Zpp

/-- Strings from the C++ side are modelled as lists of characters. -/
abbrev Str := List Char

/-- ASCII decimal digit test, modelling C `isdigit`. -/
def isDigitC (ch : Char) : Bool :=
  '0' ≤ ch && ch ≤ '9'

/-- ASCII alphabetic test, modelling C `isalpha`. -/
def isAlphaC (ch : Char) : Bool :=
  ('a' ≤ ch && ch ≤ 'z') || ('A' ≤ ch && ch ≤ 'Z')

/-- ASCII alphanumeric test, modelling C `isalnum`. -/
def isAlnumC (ch : Char) : Bool :=
  isAlphaC ch || isDigitC ch

/-- C `isspace`: space, tab, newline, vertical tab, form feed, carriage return. -/
def isSpaceC (ch : Char) : Bool :=
  ch = ' ' || ch = '\t' || ch = '\n' || ch = '\x0b' || ch = '\x0c' || ch = '\x0d'

/-- Token kinds of the lexer (`lexer.h`); the set is reconstructed from every
use site in `lexer.cpp`, `parser.cpp`, `scematic.cpp` and `ir.cpp`. -/
inductive TokenType where
  | IF | ELIF | ELSE | WHILE | FOR | RETURN | PRINT
  | INT | FLOAT_KW | BOOL | VOID | LET
  | TRUE_LIT | FALSE_LIT
  | INPUT | KEY_PRESSED | SCREEN | DRAW_PIXEL | DRAW_RECT | DRAW_LINE
  | DRAW_CIRCLE | CLEAR_SCREEN | DISPLAY | QUIT | IS_KEY_DOWN | UPDATE_INPUT
  | INTEGER | FLOAT | STRING | IDENTIFIER
  | PLUS | MINUS | STAR | SLASH | PERCENT
  | ASSIGN | EQUAL | NOT_EQUAL | NOT
  | LESS | LESS_EQUAL | GREATER | GREATER_EQUAL
  | AND | OR
  | LPAREN | RPAREN | LBRACE | RBRACE | LBRACKET | RBRACKET
  | SEMICOLON | COMMA | DOT | COLON
  | NEWLINE | END_OF_FILE | UNKNOWN
  deriving DecidableEq, Repr

/-- A lexical token: `(kind, text, line, column)`. -/
structure Token where
  ty : TokenType
  value : Str
  line : Nat
  col : Nat
  deriving DecidableEq, Repr

/-- Decimal rendering of a natural number (`std::to_string`). -/
def natToStr (n : Nat) : Str :=
  Nat.toDigits 10 n

/-- Decimal rendering of an integer (`std::to_string`). -/
def intToStr (i : Int) : Str :=
  if i < 0 then '-' :: natToStr i.natAbs else natToStr i.natAbs

namespace Lexer

/-- The keyword table `Lexer::keywords`. -/
def keywords : List (Str × TokenType) :=
  [ ("if".toList, .IF), ("elif".toList, .ELIF), ("else".toList, .ELSE),
    ("while".toList, .WHILE), ("for".toList, .FOR), ("return".toList, .RETURN),
    ("print".toList, .PRINT), ("int".toList, .INT), ("float".toList, .FLOAT_KW),
    ("bool".toList, .BOOL), ("void".toList, .VOID), ("true".toList, .TRUE_LIT),
    ("false".toList, .FALSE_LIT), ("let".toList, .LET), ("input".toList, .INPUT),
    ("key_pressed".toList, .KEY_PRESSED), ("screen".toList, .SCREEN),
    ("drawPixel".toList, .DRAW_PIXEL), ("drawRect".toList, .DRAW_RECT),
    ("drawLine".toList, .DRAW_LINE), ("drawCircle".toList, .DRAW_CIRCLE),
    ("clearScreen".toList, .CLEAR_SCREEN), ("display".toList, .DISPLAY),
    ("quit".toList, .QUIT), ("isKeyDown".toList, .IS_KEY_DOWN),
    ("updateInput".toList, .UPDATE_INPUT) ]

/-- The lexer cursor: remaining input, current line, current column.  This is
the `(source, position, line, column)` state of `Lexer`, with `position`
replaced by the remaining suffix `source.drop position`. -/
structure Cur where
  s : Str
  line : Nat
  col : Nat
  deriving DecidableEq, Repr

/-- One `advance()` step over a known head character. -/
def advStep (ch : Char) (line col : Nat) : Nat × Nat :=
  if ch = '\n' then (line + 1, 1) else (line, col + 1)

/-- Loop of `Lexer::skipWhitespace` (structural on the remaining input). -/
def skipWsAux : Str → Nat → Nat → Cur
  | [], l, c => ⟨[], l, c⟩
  | ch :: rest, l, c =>
    if isSpaceC ch && ch ≠ '\n' then
      let (l', c') := advStep ch l c
      skipWsAux rest l' c'
    else ⟨ch :: rest, l, c⟩

/-- `Lexer::skipWhitespace`: skip `isspace` characters other than newline. -/
def skipWhitespace (cur : Cur) : Cur :=
  skipWsAux cur.s cur.line cur.col

/-- Body of the line-comment loop: advance to (not past) the next newline. -/
def skipToNewline : Str → Nat → Nat → Cur
  | [], l, c => ⟨[], l, c⟩
  | ch :: rest, l, c =>
    if ch = '\n' then ⟨ch :: rest, l, c⟩
    else
      let (l', c') := advStep ch l c
      skipToNewline rest l' c'

/-- Body of the block-comment loop: advance past the first `*/`, or to
end-of-input if the comment is unterminated. -/
def skipToBlockEnd : Str → Nat → Nat → Cur
  | [], l, c => ⟨[], l, c⟩
  | ch :: rest, l, c =>
    if ch = '*' then
      match rest with
      | '/' :: rest2 =>
        let (l1, c1) := advStep '*' l c
        let (l2, c2) := advStep '/' l1 c1
        ⟨rest2, l2, c2⟩
      | _ =>
        let (l', c') := advStep ch l c
        skipToBlockEnd rest l' c'
    else
      let (l', c') := advStep ch l c
      skipToBlockEnd rest l' c'

/-- `Lexer::skipComment`. -/
def skipComment (cur : Cur) : Cur :=
  match cur.s with
  | '/' :: '/' :: rest =>
    let (l1, c1) := advStep '/' cur.line cur.col
    let (l2, c2) := advStep '/' l1 c1
    skipToNewline rest l2 c2
  | '/' :: '*' :: rest =>
    let (l1, c1) := advStep '/' cur.line cur.col
    let (l2, c2) := advStep '*' l1 c1
    skipToBlockEnd rest l2 c2
  | _ => cur

/-- Collector loop of `Lexer::readNumber`: consume digits and dots. -/
def readNumAux : Str → Nat → Nat → Str × Cur
  | [], l, c => ([], ⟨[], l, c⟩)
  | ch :: rest, l, c =>
    if isDigitC ch || ch = '.' then
      let (l', c') := advStep ch l c
      let (num, cur') := readNumAux rest l' c'
      (ch :: num, cur')
    else ([], ⟨ch :: rest, l, c⟩)

/-- `Lexer::readNumber`: a digit/dot run; kind `FLOAT` iff it contains `.`. -/
def readNumber (cur : Cur) : Token × Cur :=
  let startCol := cur.col
  let (num, cur') := readNumAux cur.s cur.line cur.col
  if num.contains '.' then
    (⟨.FLOAT, num, cur'.line, startCol⟩, cur')
  else
    (⟨.INTEGER, num, cur'.line, startCol⟩, cur')

/-- Escape-sequence mapping inside `Lexer::readString`. -/
def escChar (ch : Char) : Char :=
  if ch = 'n' then '\n'
  else if ch = 't' then '\t'
  else if ch = '\\' then '\\'
  else if ch = '"' then '"'
  else if ch = '\'' then '\''
  else ch

/-- Body loop of `Lexer::readString`: collect characters until the matching
quote (not consumed here) or end of input.  A backslash at end of input makes
the C++ code append `currentChar() = '\0'`. -/
def readStrAux (q : Char) : Str → Nat → Nat → Str × Cur
  | [], l, c => ([], ⟨[], l, c⟩)
  | ch :: rest, l, c =>
    if ch = q then ([], ⟨ch :: rest, l, c⟩)
    else if ch = '\\' then
      let (l1, c1) := advStep '\\' l c
      match rest with
      | [] => (['\x00'], ⟨[], l1, c1⟩)
      | e :: rest2 =>
        let (l2, c2) := advStep e l1 c1
        let (str, cur') := readStrAux q rest2 l2 c2
        (escChar e :: str, cur')
    else
      let (l', c') := advStep ch l c
      let (str, cur') := readStrAux q rest l' c'
      (ch :: str, cur')

/-- `Lexer::readString`: consume the opening quote, the body, and the closing
quote when present (an unterminated string is tolerated). -/
def readString (cur : Cur) : Token × Cur :=
  let startCol := cur.col
  match cur.s with
  | [] => (⟨.STRING, [], cur.line, startCol⟩, cur)
  | q :: rest =>
    let (l1, c1) := advStep q cur.line cur.col
    let (str, cur') := readStrAux q rest l1 c1
    match cur'.s with
    | ch :: rest2 =>
      if ch = q then
        let (l2, c2) := advStep ch cur'.line cur'.col
        (⟨.STRING, str, l2, startCol⟩, ⟨rest2, l2, c2⟩)
      else
        (⟨.STRING, str, cur'.line, startCol⟩, cur')
    | [] => (⟨.STRING, str, cur'.line, startCol⟩, cur')

/-- Collector loop of `Lexer::readIdentifierOrKeyword`. -/
def readIdentAux : Str → Nat → Nat → Str × Cur
  | [], l, c => ([], ⟨[], l, c⟩)
  | ch :: rest, l, c =>
    if isAlnumC ch || ch = '_' then
      let (l', c') := advStep ch l c
      let (idf, cur') := readIdentAux rest l' c'
      (ch :: idf, cur')
    else ([], ⟨ch :: rest, l, c⟩)

/-- `Lexer::readIdentifierOrKeyword`: an identifier run checked against the
keyword table. -/
def readIdentifierOrKeyword (cur : Cur) : Token × Cur :=
  let startCol := cur.col
  let (idf, cur') := readIdentAux cur.s cur.line cur.col
  match (keywords.find? (fun kv => kv.fst = idf)) with
  | some kv => (⟨kv.snd, idf, cur'.line, startCol⟩, cur')
  | none => (⟨.IDENTIFIER, idf, cur'.line, startCol⟩, cur')

/-- Helper for `readOperatorOrDelimiter`: a one-character token. -/
def opTok1 (ty : TokenType) (ch : Char) (cur : Cur) (rest : Str) : Token × Cur :=
  let (l', c') := advStep ch cur.line cur.col
  (⟨ty, [ch], cur.line, cur.col⟩, ⟨rest, l', c'⟩)

/-- Helper for `readOperatorOrDelimiter`: a two-character token. -/
def opTok2 (ty : TokenType) (c1 c2 : Char) (cur : Cur) (rest : Str) : Token × Cur :=
  let (l1, cc1) := advStep c1 cur.line cur.col
  let (l2, cc2) := advStep c2 l1 cc1
  (⟨ty, [c1, c2], l2, cur.col⟩, ⟨rest, l2, cc2⟩)

/-- `Lexer::readOperatorOrDelimiter`.  Note the `&`/`|` fallthrough: when a
lone `&` or `|` is seen the code `break`s out of the switch and performs one
more `advance()` before returning `UNKNOWN`, so the character after it is
consumed as well. -/
def readOperatorOrDelimiter (cur : Cur) : Token × Cur :=
  match cur.s with
  | [] =>
    (⟨.UNKNOWN, ['\x00'], cur.line, cur.col⟩, cur)
  | ch :: rest =>
    if ch = '+' then opTok1 .PLUS ch cur rest
    else if ch = '-' then opTok1 .MINUS ch cur rest
    else if ch = '*' then opTok1 .STAR ch cur rest
    else if ch = '/' then opTok1 .SLASH ch cur rest
    else if ch = '%' then opTok1 .PERCENT ch cur rest
    else if ch = '=' then
      match rest with
      | '=' :: rest2 => opTok2 .EQUAL '=' '=' cur rest2
      | _ => opTok1 .ASSIGN ch cur rest
    else if ch = '!' then
      match rest with
      | '=' :: rest2 => opTok2 .NOT_EQUAL '!' '=' cur rest2
      | _ => opTok1 .NOT ch cur rest
    else if ch = '<' then
      match rest with
      | '=' :: rest2 => opTok2 .LESS_EQUAL '<' '=' cur rest2
      | _ => opTok1 .LESS ch cur rest
    else if ch = '>' then
      match rest with
      | '=' :: rest2 => opTok2 .GREATER_EQUAL '>' '=' cur rest2
      | _ => opTok1 .GREATER ch cur rest
    else if ch = '&' then
      match rest with
      | '&' :: rest2 => opTok2 .AND '&' '&' cur rest2
      | c2 :: rest2 =>
        let (l1, cc1) := advStep '&' cur.line cur.col
        let (l2, cc2) := advStep c2 l1 cc1
        (⟨.UNKNOWN, ['&'], cur.line, cur.col⟩, ⟨rest2, l2, cc2⟩)
      | [] =>
        let (l1, cc1) := advStep '&' cur.line cur.col
        (⟨.UNKNOWN, ['&'], cur.line, cur.col⟩, ⟨[], l1, cc1⟩)
    else if ch = '|' then
      match rest with
      | '|' :: rest2 => opTok2 .OR '|' '|' cur rest2
      | c2 :: rest2 =>
        let (l1, cc1) := advStep '|' cur.line cur.col
        let (l2, cc2) := advStep c2 l1 cc1
        (⟨.UNKNOWN, ['|'], cur.line, cur.col⟩, ⟨rest2, l2, cc2⟩)
      | [] =>
        let (l1, cc1) := advStep '|' cur.line cur.col
        (⟨.UNKNOWN, ['|'], cur.line, cur.col⟩, ⟨[], l1, cc1⟩)
    else if ch = '(' then opTok1 .LPAREN ch cur rest
    else if ch = ')' then opTok1 .RPAREN ch cur rest
    else if ch = '\x7b' then opTok1 .LBRACE ch cur rest
    else if ch = '\x7d' then opTok1 .RBRACE ch cur rest
    else if ch = '[' then opTok1 .LBRACKET ch cur rest
    else if ch = ']' then opTok1 .RBRACKET ch cur rest
    else if ch = ';' then opTok1 .SEMICOLON ch cur rest
    else if ch = ',' then opTok1 .COMMA ch cur rest
    else if ch = '.' then opTok1 .DOT ch cur rest
    else if ch = ':' then opTok1 .COLON ch cur rest
    else opTok1 .UNKNOWN ch cur rest

/-- Guard of the comment-skipping loop in `Lexer::nextToken`. -/
def isCommentStart : Str → Bool
  | '/' :: '/' :: _ => true
  | '/' :: '*' :: _ => true
  | _ => false

/-- The comment-skipping loop in `Lexer::nextToken` (fueled; each iteration
consumes at least the two comment-opening characters). -/
def ntLoop : Nat → Cur → Cur
  | 0, cur => cur
  | fuel + 1, cur =>
    if isCommentStart cur.s then
      ntLoop fuel (skipWhitespace (skipComment cur))
    else cur

/-- `Lexer::nextToken`. -/
def nextToken (cur : Cur) : Token × Cur :=
  let cur1 := skipWhitespace cur
  let cur2 := ntLoop (cur1.s.length + 1) cur1
  match cur2.s with
  | [] => (⟨.END_OF_FILE, [], cur2.line, cur2.col⟩, cur2)
  | ch :: rest =>
    if ch = '\n' then
      -- the C++ advances first and then reports `line - 1`, i.e. the
      -- pre-advance line number
      let (l', c') := advStep '\n' cur2.line cur2.col
      (⟨.NEWLINE, ['\n'], cur2.line, cur2.col⟩, ⟨rest, l', c'⟩)
    else if isDigitC ch then readNumber cur2
    else if ch = '"' || ch = '\'' then readString cur2
    else if isAlphaC ch || ch = '_' then readIdentifierOrKeyword cur2
    else readOperatorOrDelimiter cur2

/-- The token-collecting loop of `Lexer::tokenize`, fueled. -/
def tokenizeF : Nat → Cur → List Token
  | 0, _ => []
  | fuel + 1, cur =>
    let (t, cur') := nextToken cur
    if t.ty = .END_OF_FILE then [t]
    else t :: tokenizeF fuel cur'

/-- `Lexer::tokenize`: collect tokens until `END_OF_FILE` (inclusive).  One
unit of fuel per character suffices because every non-EOF token consumes at
least one character. -/
def tokenize (src : Str) : List Token :=
  tokenizeF (src.length + 1) ⟨src, 1, 1⟩

end Lexer


/-! ### AST (`parser.h`) -/

/-- Expression nodes (`parser.h`).  C++ `ExpressionPtr` children that may be
null are `Option`s. -/
inductive Expr where
  | lit (ty : TokenType) (value : Str)
  | ident (name : Str)
  | binop (l : Expr) (op : TokenType) (r : Expr)
  | unop (op : TokenType) (operand : Expr)
  | call (name : Str) (args : List Expr)
  | inputCall (prompt : Option Expr)
  | keyPressedCall (prompt : Option Expr)
  | arrayAccess (arr idx : Expr)
  | assign (name : Str) (value : Expr)

/-- Statement nodes (`parser.h`). -/
inductive Stmt where
  | exprStmt (e : Expr)
  | printStmt (e : Expr)
  | block (ss : List Stmt)
  | ret (e : Option Expr)
  | ifS (cond : Expr) (thenB : Stmt) (elseB : Option Stmt)
  | whileS (cond : Expr) (body : Stmt)
  | forS (init : Option Stmt) (cond : Option Expr) (incr : Option Expr) (body : Stmt)
  | varDecl (name : Str) (tyName : Str) (init : Option Expr)

/-- A function declaration (`parser.h`): parameters are `(type, name)` pairs. -/
structure FunctionDecl where
  returnType : Str
  name : Str
  parameters : List (Str × Str)
  body : Stmt

/-- The program node (`parser.h`). -/
structure Program where
  functions : List FunctionDecl

namespace Parser

/-- Parser state: the fixed token vector and the `current` index. -/
structure PSt where
  tokens : List Token
  current : Nat
  deriving Repr

/-- `Parser::currentToken` (out-of-range yields an `END_OF_FILE` token). -/
def currentToken (st : PSt) : Token :=
  st.tokens.getD st.current ⟨.END_OF_FILE, [], 0, 0⟩

/-- `Parser::peekToken`. -/
def peekToken (st : PSt) (offset : Nat := 1) : Token :=
  st.tokens.getD (st.current + offset) ⟨.END_OF_FILE, [], 0, 0⟩

/-- `Parser::advance`. -/
def advanceP (st : PSt) : PSt :=
  if st.current < st.tokens.length then { st with current := st.current + 1 }
  else st

/-- `Parser::check`. -/
def check (st : PSt) (ty : TokenType) : Bool :=
  (currentToken st).ty = ty

/-- `Parser::match` on a list of token types. -/
def matchTs (st : PSt) (tys : List TokenType) : Bool × PSt :=
  match tys.find? (fun ty => check st ty) with
  | some _ => (true, advanceP st)
  | none => (false, st)

/-- `Parser::consume`: expect a token type or raise a `SyntaxError`. -/
def consume (st : PSt) (ty : TokenType) (msg : Str) : Except Str PSt :=
  if check st ty then .ok (advanceP st) else .error msg

/-- `Parser::isType`. -/
def isType (ty : TokenType) : Bool :=
  ty = .INT || ty = .FLOAT_KW || ty = .BOOL || ty = .VOID || ty = .IDENTIFIER

/-- Index of a token type in the `TokenType` enumeration, standing in for the
C++ `(int)tok.type` cast (`lexer.h` is not in the sources; the number is used
only inside the `parsePrimary` diagnostic string). -/
def tokenTypeIdx (ty : TokenType) : Nat :=
  ty.toCtorIdx

/-- `Parser::tokenTypeToString`: note that in the `IDENTIFIER` case the C++
reads the *current token's* value. -/
def tokenTypeToString (st : PSt) (ty : TokenType) : Str :=
  if ty = .INT then "int".toList
  else if ty = .FLOAT_KW then "float".toList
  else if ty = .BOOL then "bool".toList
  else if ty = .VOID then "void".toList
  else if ty = .IDENTIFIER then (currentToken st).value
  else "unknown".toList

mutual

/-- Newline-skipping loops (`while (check(NEWLINE)) advance();`). -/
def skipNewlinesF : Nat → PSt → PSt
  | 0, st => st
  | fuel + 1, st =>
    if check st .NEWLINE then skipNewlinesF fuel (advanceP st) else st

/-- Loop of `Parser::parse`: collect function declarations. -/
def parseProgramLoopF : Nat → PSt → List FunctionDecl → Except Str (List FunctionDecl)
  | 0, _, _ => .error "PARSER_FUEL".toList
  | fuel + 1, st, acc =>
    if check st .END_OF_FILE then .ok acc.reverse
    else
      let st := skipNewlinesF fuel st
      if check st .END_OF_FILE then .ok acc.reverse
      else do
        let (f, st') ← parseFunctionF fuel st
        parseProgramLoopF fuel st' (f :: acc)

/-- `Parser::parseFunction`. -/
def parseFunctionF : Nat → PSt → Except Str (FunctionDecl × PSt)
  | 0, _ => .error "PARSER_FUEL".toList
  | fuel + 1, st => do
    let mut0 : Str × PSt :=
      if isType (currentToken st).ty then
        if (currentToken st).ty = .IDENTIFIER && (peekToken st).ty = .LPAREN then
          ("void".toList, st)
        else
          (tokenTypeToString st (currentToken st).ty, advanceP st)
      else ("void".toList, st)
    let (returnType, st) := mut0
    if !check st .IDENTIFIER then .error "Expected function name".toList
    else do
      let name := (currentToken st).value
      let st := advanceP st
      let st ← consume st .LPAREN "Expected '('".toList
      let (params, st) ←
        if check st .RPAREN then .ok (([] : List (Str × Str)), st)
        else paramListLoopF fuel st []
      let st ← consume st .RPAREN "Expected ')'".toList
      let (body, st) ← parseBlockStatementF fuel st
      .ok (⟨returnType, name, params, body⟩, st)

/-- Parameter list loop of `Parser::parseFunction` (a `do … while (match(COMMA))`). -/
def paramListLoopF : Nat → PSt → List (Str × Str) → Except Str ((List (Str × Str) × PSt))
  | 0, _, _ => .error "PARSER_FUEL".toList
  | fuel + 1, st, acc => do
    let paramType := tokenTypeToString st (currentToken st).ty
    let st := advanceP st
    if !check st .IDENTIFIER then .error "Expected parameter name".toList
    else
      let paramName := (currentToken st).value
      let st := advanceP st
      let acc := acc ++ [(paramType, paramName)]
      let (matched, st) := matchTs st [.COMMA]
      if matched then paramListLoopF fuel st acc
      else .ok (acc, st)

/-- `Parser::parseStatement` (dispatch on the leading token). -/
def parseStatementF : Nat → PSt → Except Str (Stmt × PSt)
  | 0, _ => .error "PARSER_FUEL".toList
  | fuel + 1, st =>
    if check st .LBRACE then parseBlockStatementF fuel st
    else if check st .RETURN then parseReturnStatementF fuel st
    else if check st .IF then parseIfStatementF fuel st
    else if check st .WHILE then parseWhileStatementF fuel st
    else if check st .FOR then parseForStatementF fuel st
    else
      let looksLikeType :=
        if (currentToken st).ty = .IDENTIFIER then (peekToken st).ty = .IDENTIFIER
        else isType (currentToken st).ty
      if looksLikeType || check st .LET then parseVariableDeclarationF fuel st
      else if check st .PRINT then parsePrintStatementF fuel st
      else parseExpressionStatementF fuel st

/-- `Parser::parseBlockStatement`. -/
def parseBlockStatementF : Nat → PSt → Except Str (Stmt × PSt)
  | 0, _ => .error "PARSER_FUEL".toList
  | fuel + 1, st => do
    let st ← consume st .LBRACE "Expected '\x7b'".toList
    let (stmts, st) ← blockLoopF fuel st []
    let st ← consume st .RBRACE "Expected '\x7d'".toList
    .ok (.block stmts, st)

/-- Statement loop of `Parser::parseBlockStatement`. -/
def blockLoopF : Nat → PSt → List Stmt → Except Str ((List Stmt) × PSt)
  | 0, _, _ => .error "PARSER_FUEL".toList
  | fuel + 1, st, acc =>
    if !check st .RBRACE && !check st .END_OF_FILE then
      let st := skipNewlinesF fuel st
      if check st .RBRACE || check st .END_OF_FILE then .ok (acc.reverse, st)
      else do
        let (s, st') ← parseStatementF fuel st
        blockLoopF fuel st' (s :: acc)
    else .ok (acc.reverse, st)

/-- `Parser::parseReturnStatement`. -/
def parseReturnStatementF : Nat → PSt → Except Str (Stmt × PSt)
  | 0, _ => .error "PARSER_FUEL".toList
  | fuel + 1, st => do
    let st ← consume st .RETURN "Expected 'return'".toList
    let (expr, st) ←
      if !check st .SEMICOLON then do
        let (e, st') ← parseExpressionF fuel st
        .ok (some e, st')
      else .ok (none, st)
    let st ← consume st .SEMICOLON "Expected ';' after return".toList
    .ok (.ret expr, st)

/-- `Parser::parseIfStatement` (also used for `elif`). -/
def parseIfStatementF : Nat → PSt → Except Str (Stmt × PSt)
  | 0, _ => .error "PARSER_FUEL".toList
  | fuel + 1, st => do
    let st ←
      if check st .IF then .ok (advanceP st)
      else if check st .ELIF then .ok (advanceP st)
      else .error "Expected 'if' or 'elif'".toList
    let st ← consume st .LPAREN "Expected '(' after condition".toList
    let (cond, st) ← parseExpressionF fuel st
    let st ← consume st .RPAREN "Expected ')' after condition".toList
    let (thenB, st) ← parseStatementF fuel st
    if check st .ELIF then do
      let (elseB, st) ← parseIfStatementF fuel st
      .ok (.ifS cond thenB (some elseB), st)
    else if check st .ELSE then do
      let (elseB, st) ← parseStatementF fuel (advanceP st)
      .ok (.ifS cond thenB (some elseB), st)
    else .ok (.ifS cond thenB none, st)

/-- `Parser::parseWhileStatement`. -/
def parseWhileStatementF : Nat → PSt → Except Str (Stmt × PSt)
  | 0, _ => .error "PARSER_FUEL".toList
  | fuel + 1, st => do
    let st ← consume st .WHILE "Expected 'while'".toList
    let st ← consume st .LPAREN "Expected '(' after 'while'".toList
    let (cond, st) ← parseExpressionF fuel st
    let st ← consume st .RPAREN "Expected ')' after while condition".toList
    let (body, st) ← parseStatementF fuel st
    .ok (.whileS cond body, st)

/-- `Parser::parseForStatement`. -/
def parseForStatementF : Nat → PSt → Except Str (Stmt × PSt)
  | 0, _ => .error "PARSER_FUEL".toList
  | fuel + 1, st => do
    let st ← consume st .FOR "Expected 'for'".toList
    let st ← consume st .LPAREN "Expected '(' after 'for'".toList
    let (init, st) ←
      if !check st .SEMICOLON then
        if check st .LET then do
          let st ← consume st .LET "Expected 'let'".toList
          if !check st .IDENTIFIER then .error "Expected variable name".toList
          else do
            let name := (currentToken st).value
            let st := advanceP st
            let st ← consume st .COLON "Expected ':' after variable name".toList
            if !isType (currentToken st).ty then .error "Expected type after ':'".toList
            else do
              let ty := tokenTypeToString st (currentToken st).ty
              let st := advanceP st
              let st ← consume st .ASSIGN "Expected '=' after type".toList
              let (initializer, st) ← parseExpressionF fuel st
              .ok (some (Stmt.varDecl name ty (some initializer)), st)
        else if isType (currentToken st).ty || (currentToken st).ty = .IDENTIFIER then do
          if !isType (currentToken st).ty then .error "Expected type for variable declaration".toList
          else do
            let ty := tokenTypeToString st (currentToken st).ty
            let st := advanceP st
            if !check st .IDENTIFIER then .error "Expected variable name".toList
            else do
              let name := (currentToken st).value
              let st := advanceP st
              if check st .ASSIGN then do
                let (initializer, st) ← parseExpressionF fuel (advanceP st)
                .ok (some (Stmt.varDecl name ty (some initializer)), st)
              else .ok (some (Stmt.varDecl name ty none), st)
        else do
          let (s, st') ← parseExpressionStatementF fuel st
          .ok (some s, st')
      else .ok (none, st)
    let st ← consume st .SEMICOLON "Expected ';' after for-init".toList
    let (cond, st) ←
      if !check st .SEMICOLON then do
        let (e, st') ← parseExpressionF fuel st
        .ok (some e, st')
      else .ok (none, st)
    let st ← consume st .SEMICOLON "Expected ';' after for-condition".toList
    let (incr, st) ←
      if !check st .RPAREN then do
        let (e, st') ← parseExpressionF fuel st
        .ok (some e, st')
      else .ok (none, st)
    let st ← consume st .RPAREN "Expected ')' after for clauses".toList
    let (body, st) ← parseStatementF fuel st
    .ok (.forS init cond incr body, st)

/-- `Parser::parseVariableDeclaration` (the `let` and C-style forms). -/
def parseVariableDeclarationF : Nat → PSt → Except Str (Stmt × PSt)
  | 0, _ => .error "PARSER_FUEL".toList
  | fuel + 1, st =>
    if check st .LET then do
      let st ← consume st .LET "Expected 'let'".toList
      if !check st .IDENTIFIER then .error "Expected variable name".toList
      else do
        let name := (currentToken st).value
        let st := advanceP st
        let st ← consume st .COLON "Expected ':' after variable name".toList
        if !isType (currentToken st).ty then .error "Expected type after ':'".toList
        else do
          let ty := tokenTypeToString st (currentToken st).ty
          let st := advanceP st
          let st ← consume st .ASSIGN "Expected '=' after type".toList
          let (initializer, st) ← parseExpressionF fuel st
          let st ← consume st .SEMICOLON "Expected ';' after variable declaration".toList
          .ok (.varDecl name ty (some initializer), st)
    else do
      if !isType (currentToken st).ty then .error "Expected type for variable declaration".toList
      else do
        let ty := tokenTypeToString st (currentToken st).ty
        let st := advanceP st
        if !check st .IDENTIFIER then .error "Expected variable name".toList
        else do
          let name := (currentToken st).value
          let st := advanceP st
          let (initializer, st) ←
            if check st .ASSIGN then do
              let (e, st') ← parseExpressionF fuel (advanceP st)
              .ok (some e, st')
            else .ok (none, st)
          let st ← consume st .SEMICOLON "Expected ';' after variable declaration".toList
          .ok (.varDecl name ty initializer, st)

/-- `Parser::parsePrintStatement`. -/
def parsePrintStatementF : Nat → PSt → Except Str (Stmt × PSt)
  | 0, _ => .error "PARSER_FUEL".toList
  | fuel + 1, st => do
    let st ← consume st .PRINT "Expected 'print'".toList
    let st ← consume st .LPAREN "Expected '(' after 'print'".toList
    let (e, st) ← parseExpressionF fuel st
    let st ← consume st .RPAREN "Expected ')'".toList
    let st ← consume st .SEMICOLON "Expected ';' after print statement".toList
    .ok (.printStmt e, st)

/-- `Parser::parseExpressionStatement`. -/
def parseExpressionStatementF : Nat → PSt → Except Str (Stmt × PSt)
  | 0, _ => .error "PARSER_FUEL".toList
  | fuel + 1, st => do
    let (e, st) ← parseExpressionF fuel st
    let st ← consume st .SEMICOLON "Expected ';' after expression".toList
    .ok (.exprStmt e, st)

/-- `Parser::parseExpression` (delegates to the comma level). -/
def parseExpressionF : Nat → PSt → Except Str (Expr × PSt)
  | 0, _ => .error "PARSER_FUEL".toList
  | fuel + 1, st => parseCommaF fuel st

/-- `Parser::parseComma`. -/
def parseCommaF : Nat → PSt → Except Str (Expr × PSt)
  | 0, _ => .error "PARSER_FUEL".toList
  | fuel + 1, st => do
    let (left, st) ← parseAssignmentF fuel st
    commaLoopF fuel left st

/-- Loop of `Parser::parseComma`. -/
def commaLoopF : Nat → Expr → PSt → Except Str (Expr × PSt)
  | 0, _, _ => .error "PARSER_FUEL".toList
  | fuel + 1, left, st =>
    if check st .COMMA then do
      let (right, st') ← parseAssignmentF fuel (advanceP st)
      commaLoopF fuel (.binop left .COMMA right) st'
    else .ok (left, st)

/-- `Parser::parseAssignment` (right associative; the target must be a bare
identifier). -/
def parseAssignmentF : Nat → PSt → Except Str (Expr × PSt)
  | 0, _ => .error "PARSER_FUEL".toList
  | fuel + 1, st => do
    let (left, st) ← parseLogicalOrF fuel st
    if check st .ASSIGN then
      match left with
      | .ident name => do
        let (value, st') ← parseAssignmentF fuel (advanceP st)
        .ok (.assign name value, st')
      | _ => .error "Invalid assignment target".toList
    else .ok (left, st)

/-- `Parser::parseLogicalOr`. -/
def parseLogicalOrF : Nat → PSt → Except Str (Expr × PSt)
  | 0, _ => .error "PARSER_FUEL".toList
  | fuel + 1, st => do
    let (left, st) ← parseLogicalAndF fuel st
    orLoopF fuel left st

/-- Loop of `Parser::parseLogicalOr`. -/
def orLoopF : Nat → Expr → PSt → Except Str (Expr × PSt)
  | 0, _, _ => .error "PARSER_FUEL".toList
  | fuel + 1, left, st =>
    if check st .OR then do
      let (right, st') ← parseLogicalAndF fuel (advanceP st)
      orLoopF fuel (.binop left .OR right) st'
    else .ok (left, st)

/-- `Parser::parseLogicalAnd`. -/
def parseLogicalAndF : Nat → PSt → Except Str (Expr × PSt)
  | 0, _ => .error "PARSER_FUEL".toList
  | fuel + 1, st => do
    let (left, st) ← parseEqualityF fuel st
    andLoopF fuel left st

/-- Loop of `Parser::parseLogicalAnd`. -/
def andLoopF : Nat → Expr → PSt → Except Str (Expr × PSt)
  | 0, _, _ => .error "PARSER_FUEL".toList
  | fuel + 1, left, st =>
    if check st .AND then do
      let (right, st') ← parseEqualityF fuel (advanceP st)
      andLoopF fuel (.binop left .AND right) st'
    else .ok (left, st)

/-- `Parser::parseEquality`. -/
def parseEqualityF : Nat → PSt → Except Str (Expr × PSt)
  | 0, _ => .error "PARSER_FUEL".toList
  | fuel + 1, st => do
    let (left, st) ← parseComparisonF fuel st
    eqLoopF fuel left st

/-- Loop of `Parser::parseEquality`. -/
def eqLoopF : Nat → Expr → PSt → Except Str (Expr × PSt)
  | 0, _, _ => .error "PARSER_FUEL".toList
  | fuel + 1, left, st =>
    if check st .EQUAL || check st .NOT_EQUAL then do
      let op := (currentToken st).ty
      let (right, st') ← parseComparisonF fuel (advanceP st)
      eqLoopF fuel (.binop left op right) st'
    else .ok (left, st)

/-- `Parser::parseComparison`. -/
def parseComparisonF : Nat → PSt → Except Str (Expr × PSt)
  | 0, _ => .error "PARSER_FUEL".toList
  | fuel + 1, st => do
    let (left, st) ← parseAdditiveF fuel st
    cmpLoopF fuel left st

/-- Loop of `Parser::parseComparison`. -/
def cmpLoopF : Nat → Expr → PSt → Except Str (Expr × PSt)
  | 0, _, _ => .error "PARSER_FUEL".toList
  | fuel + 1, left, st =>
    if check st .LESS || check st .LESS_EQUAL || check st .GREATER || check st .GREATER_EQUAL then do
      let op := (currentToken st).ty
      let (right, st') ← parseAdditiveF fuel (advanceP st)
      cmpLoopF fuel (.binop left op right) st'
    else .ok (left, st)

/-- `Parser::parseAdditive`. -/
def parseAdditiveF : Nat → PSt → Except Str (Expr × PSt)
  | 0, _ => .error "PARSER_FUEL".toList
  | fuel + 1, st => do
    let (left, st) ← parseMultiplicativeF fuel st
    addLoopF fuel left st

/-- Loop of `Parser::parseAdditive`. -/
def addLoopF : Nat → Expr → PSt → Except Str (Expr × PSt)
  | 0, _, _ => .error "PARSER_FUEL".toList
  | fuel + 1, left, st =>
    if check st .PLUS || check st .MINUS then do
      let op := (currentToken st).ty
      let (right, st') ← parseMultiplicativeF fuel (advanceP st)
      addLoopF fuel (.binop left op right) st'
    else .ok (left, st)

/-- `Parser::parseMultiplicative`. -/
def parseMultiplicativeF : Nat → PSt → Except Str (Expr × PSt)
  | 0, _ => .error "PARSER_FUEL".toList
  | fuel + 1, st => do
    let (left, st) ← parseUnaryF fuel st
    mulLoopF fuel left st

/-- Loop of `Parser::parseMultiplicative`. -/
def mulLoopF : Nat → Expr → PSt → Except Str (Expr × PSt)
  | 0, _, _ => .error "PARSER_FUEL".toList
  | fuel + 1, left, st =>
    if check st .STAR || check st .SLASH || check st .PERCENT then do
      let op := (currentToken st).ty
      let (right, st') ← parseUnaryF fuel (advanceP st)
      mulLoopF fuel (.binop left op right) st'
    else .ok (left, st)

/-- `Parser::parseUnary`. -/
def parseUnaryF : Nat → PSt → Except Str (Expr × PSt)
  | 0, _ => .error "PARSER_FUEL".toList
  | fuel + 1, st =>
    if check st .NOT || check st .MINUS then do
      let op := (currentToken st).ty
      let (operand, st') ← parseUnaryF fuel (advanceP st)
      .ok (.unop op operand, st')
    else parsePostfixExprF fuel st

/-- `Parser::parsePostfix` (call and index suffixes). -/
def parsePostfixExprF : Nat → PSt → Except Str (Expr × PSt)
  | 0, _ => .error "PARSER_FUEL".toList
  | fuel + 1, st => do
    let (e, st) ← parsePrimaryF fuel st
    postfixLoopF fuel e st

/-- Suffix loop of `Parser::parsePostfix`. -/
def postfixLoopF : Nat → Expr → PSt → Except Str (Expr × PSt)
  | 0, _, _ => .error "PARSER_FUEL".toList
  | fuel + 1, e, st =>
    if check st .LPAREN then do
      let st := advanceP st
      let (args, st) ←
        if !check st .RPAREN then argListLoopF fuel st []
        else .ok (([] : List Expr), st)
      let st ← consume st .RPAREN "Expected ')' after arguments".toList
      match e with
      | .ident name => postfixLoopF fuel (.call name args) st
      | _ => .error "Invalid function call".toList
    else if check st .LBRACKET then do
      let st := advanceP st
      let (index, st) ← parseExpressionF fuel st
      let st ← consume st .RBRACKET "Expected ']' after index".toList
      postfixLoopF fuel (.arrayAccess e index) st
    else .ok (e, st)

/-- Argument list loop (`do { args.push_back(parseAssignment()); } while
(match(COMMA))`), shared verbatim by the call and built-in branches. -/
def argListLoopF : Nat → PSt → List Expr → Except Str ((List Expr) × PSt)
  | 0, _, _ => .error "PARSER_FUEL".toList
  | fuel + 1, st, acc => do
    let (a, st) ← parseAssignmentF fuel st
    let acc := acc ++ [a]
    let (matched, st) := matchTs st [.COMMA]
    if matched then argListLoopF fuel st acc
    else .ok (acc, st)

/-- Optional parenthesized argument list of the built-in primaries. -/
def builtinArgsF : Nat → PSt → Except Str ((List Expr) × PSt)
  | 0, _ => .error "PARSER_FUEL".toList
  | fuel + 1, st =>
    if check st .LPAREN then do
      let st := advanceP st
      let (args, st) ←
        if !check st .RPAREN then argListLoopF fuel st []
        else .ok (([] : List Expr), st)
      let st ← consume st .RPAREN "Expected ')'".toList
      .ok (args, st)
    else .ok (([] : List Expr), st)

/-- Optional parenthesized prompt of `input` / `key_pressed`. -/
def promptArgF : Nat → PSt → Except Str ((Option Expr) × PSt)
  | 0, _ => .error "PARSER_FUEL".toList
  | fuel + 1, st =>
    if check st .LPAREN then do
      let st := advanceP st
      let (prompt, st) ←
        if !check st .RPAREN then do
          let (e, st') ← parseExpressionF fuel st
          .ok (some e, st')
        else .ok (none, st)
      let st ← consume st .RPAREN "Expected ')'".toList
      .ok (prompt, st)
    else .ok (none, st)

/-- `Parser::parsePrimary`. -/
def parsePrimaryF : Nat → PSt → Except Str (Expr × PSt)
  | 0, _ => .error "PARSER_FUEL".toList
  | fuel + 1, st =>
    if check st .TRUE_LIT then .ok (.lit .TRUE_LIT "1".toList, advanceP st)
    else if check st .FALSE_LIT then .ok (.lit .FALSE_LIT "0".toList, advanceP st)
    else if check st .INTEGER || check st .FLOAT || check st .STRING then
      let tok := currentToken st
      .ok (.lit tok.ty tok.value, advanceP st)
    else if check st .IDENTIFIER then
      .ok (.ident (currentToken st).value, advanceP st)
    else if check st .INPUT then do
      let (prompt, st) ← promptArgF fuel (advanceP st)
      .ok (.inputCall prompt, st)
    else if check st .KEY_PRESSED then do
      let (prompt, st) ← promptArgF fuel (advanceP st)
      .ok (.keyPressedCall prompt, st)
    else if check st .SCREEN then do
      let (args, st) ← builtinArgsF fuel (advanceP st)
      .ok (.call "screen".toList args, st)
    else if check st .CLEAR_SCREEN then do
      let (args, st) ← builtinArgsF fuel (advanceP st)
      .ok (.call "clearScreen".toList args, st)
    else if check st .DRAW_PIXEL then do
      let (args, st) ← builtinArgsF fuel (advanceP st)
      .ok (.call "drawPixel".toList args, st)
    else if check st .DRAW_RECT then do
      let (args, st) ← builtinArgsF fuel (advanceP st)
      .ok (.call "drawRect".toList args, st)
    else if check st .DRAW_LINE then do
      let (args, st) ← builtinArgsF fuel (advanceP st)
      .ok (.call "drawLine".toList args, st)
    else if check st .DRAW_CIRCLE then do
      let (args, st) ← builtinArgsF fuel (advanceP st)
      .ok (.call "drawCircle".toList args, st)
    else if check st .DISPLAY then do
      let (args, st) ← builtinArgsF fuel (advanceP st)
      .ok (.call "display".toList args, st)
    else if check st .QUIT then do
      let (args, st) ← builtinArgsF fuel (advanceP st)
      .ok (.call "quit".toList args, st)
    else if check st .IS_KEY_DOWN then do
      let (args, st) ← builtinArgsF fuel (advanceP st)
      .ok (.call "isKeyDown".toList args, st)
    else if check st .UPDATE_INPUT then do
      let (args, st) ← builtinArgsF fuel (advanceP st)
      .ok (.call "updateInput".toList args, st)
    else if check st .LPAREN then do
      let (e, st) ← parseExpressionF fuel (advanceP st)
      let st ← consume st .RPAREN "Expected ')'".toList
      .ok (e, st)
    else
      let tok := currentToken st
      .error ("Unexpected token in expression: '".toList ++ tok.value ++
        "' (".toList ++ natToStr (tokenTypeIdx tok.ty) ++ ")".toList)

end

/-- `Parser::parse`, with fuel proportional to the token count (the recursion
depth of the grammar is bounded by a small multiple of the remaining tokens). -/
def parse (tokens : List Token) : Except Str Program := do
  let fuel := 32 * (tokens.length + 2)
  let fs ← parseProgramLoopF fuel ⟨tokens, 0⟩ []
  .ok ⟨fs⟩

end Parser

/-! ### IR (`ir.h`, `ir.cpp`) -/

/-- IR opcodes (`ir.h`). -/
inductive IROpCode where
  | ADD | SUB | MUL | DIV | MOD | NEG | CONCAT
  | AND | OR | NOT
  | EQ | NE | LT | GT | LE | GE
  | JMP | JZ | JNZ | CALL | RET
  | LOAD | STORE | LOAD_GLOBAL | STORE_GLOBAL
  | LOAD_INT | LOAD_FLOAT | LOAD_STRING
  | PRINT | INPUT | KEY_PRESSED | SCREEN
  | DRAW_PIXEL | DRAW_RECT | DRAW_LINE | DRAW_CIRCLE | CLEAR_SCREEN | PRESENT
  | LABEL | NOP
  deriving DecidableEq, Repr

/-- The `IRValue::Type` enumeration. -/
inductive IRValType where
  | TEMP | GLOBAL | LOCAL | CONSTANT | LABEL
  deriving DecidableEq, Repr

/-- An `IRValue`; the C++ default constructor gives `(TEMP, "", -1)`. -/
structure IRValue where
  ty : IRValType := .TEMP
  name : Str := []
  id : Int := -1
  deriving DecidableEq, Repr

/-- `IRValue::toString`. -/
def IRValue.toStr (v : IRValue) : Str :=
  match v.ty with
  | .TEMP => 't' :: intToStr v.id
  | .GLOBAL => "g_".toList ++ v.name
  | .LOCAL => "l_".toList ++ v.name
  | .CONSTANT => v.name
  | .LABEL => v.name

/-- An `IRInstruction`; `label` is used by jumps/`LABEL`/`CALL`, `prompt` by
`INPUT`. -/
structure IRInstruction where
  opcode : IROpCode
  operands : List IRValue := []
  result : IRValue := {}
  label : Str := []
  prompt : Str := []
  deriving DecidableEq, Repr

/-- An `IRFunction`. -/
structure IRFunction where
  name : Str
  returnType : Str
  parameters : List (Str × Str)
  instructions : List IRInstruction
  deriving DecidableEq, Repr

/-- An `IRProgram` (the `globalVariables` map is never populated). -/
structure IRProgram where
  functions : List IRFunction
  globalVariables : List (Str × Str) := []
  deriving DecidableEq, Repr

namespace IRGen

/-- Update (or insert) a binding in an association list, modelling
`unordered_map::operator[] =`. -/
def setAssoc (m : List (Str × IRValue)) (k : Str) (v : IRValue) : List (Str × IRValue) :=
  match m with
  | [] => [(k, v)]
  | (k', v') :: rest => if k' = k then (k, v) :: rest else (k', v') :: setAssoc rest k v

/-- Generator state (`IRGenerator`'s fields).  `cur` is the instruction list
of the function currently being generated.  `tempTrace` and `labelTrace` are
proof-only instrumentation: they record the argument of every `createTemp`
and `createLabel` call in order and influence nothing else. -/
structure GSt where
  funcs : List IRFunction := []
  cur : List IRInstruction := []
  tempCounter : Nat := 0
  labelCounter : Nat := 0
  symbolTable : List (Str × IRValue) := []
  tempTrace : List Nat := []
  labelTrace : List Nat := []
  deriving Repr

/-- `IRGenerator::createTemp`. -/
def createTemp (s : GSt) : IRValue × GSt :=
  (⟨.TEMP, 't' :: natToStr s.tempCounter, s.tempCounter⟩,
   { s with tempCounter := s.tempCounter + 1,
            tempTrace := s.tempTrace ++ [s.tempCounter] })

/-- `IRGenerator::createLabel`. -/
def createLabel (s : GSt) : Str × GSt :=
  ('L' :: natToStr s.labelCounter,
   { s with labelCounter := s.labelCounter + 1,
            labelTrace := s.labelTrace ++ [s.labelCounter] })

/-- `IRGenerator::emitInstruction`. -/
def emit (i : IRInstruction) (s : GSt) : GSt :=
  { s with cur := s.cur ++ [i] }

/-- `IRGenerator::tokenTypeToOpCode`. -/
def tokenTypeToOpCode (ty : TokenType) : IROpCode :=
  if ty = .PLUS then .ADD
  else if ty = .MINUS then .SUB
  else if ty = .STAR then .MUL
  else if ty = .SLASH then .DIV
  else if ty = .PERCENT then .MOD
  else if ty = .AND then .AND
  else if ty = .OR then .OR
  else if ty = .COMMA then .CONCAT
  else if ty = .NOT then .NOT
  else if ty = .EQUAL then .EQ
  else if ty = .NOT_EQUAL then .NE
  else if ty = .LESS then .LT
  else if ty = .GREATER then .GT
  else if ty = .LESS_EQUAL then .LE
  else if ty = .GREATER_EQUAL then .GE
  else .NOP

mutual

/-- `IRGenerator::visitExpression` and the specific visit methods. -/
def genExpr : Expr → GSt → IRValue × GSt
  | .binop l op r, s =>
    let (lv, s) := genExpr l s
    let (rv, s) := genExpr r s
    let (result, s) := createTemp s
    let opcode := if op = .OR || op = .COMMA then IROpCode.CONCAT
                  else tokenTypeToOpCode op
    (result, emit { opcode := opcode, operands := [lv, rv], result := result } s)
  | .unop op e, s =>
    let (ov, s) := genExpr e s
    let (result, s) := createTemp s
    (result, emit { opcode := tokenTypeToOpCode op, operands := [ov], result := result } s)
  | .lit ty v, s =>
    let val : IRValue := { ty := .CONSTANT, name := v }
    if ty = .INTEGER then
      let (result, s) := createTemp s
      (result, emit { opcode := .LOAD_INT, operands := [val], result := result } s)
    else if ty = .FLOAT then
      let (result, s) := createTemp s
      (result, emit { opcode := .LOAD_FLOAT, operands := [val], result := result } s)
    else if ty = .STRING then
      let (result, s) := createTemp s
      (result, emit { opcode := .LOAD_STRING, operands := [val], result := result } s)
    else
      (val, s)
  | .ident name, s =>
    (match s.symbolTable.find? (fun kv => kv.fst = name) with
     | some kv => (kv.snd, s)
     | none =>
       let var : IRValue := { ty := .LOCAL, name := name }
       (var, { s with symbolTable := setAssoc s.symbolTable name var }))
  | .call name args, s =>
    let (result, s) := createTemp s
    if name = "screen".toList then
      let (argVals, s) := genExprList args s
      (result, emit { opcode := .SCREEN, operands := argVals, result := result } s)
    else if name = "clearScreen".toList then
      let (argVals, s) := genExprList args s
      (result, emit { opcode := .CLEAR_SCREEN, operands := argVals, result := result } s)
    else if name = "drawPixel".toList then
      let (argVals, s) := genExprList args s
      (result, emit { opcode := .DRAW_PIXEL, operands := argVals, result := result } s)
    else if name = "drawRect".toList then
      let (argVals, s) := genExprList args s
      (result, emit { opcode := .DRAW_RECT, operands := argVals, result := result } s)
    else if name = "drawLine".toList then
      let (argVals, s) := genExprList args s
      (result, emit { opcode := .DRAW_LINE, operands := argVals, result := result } s)
    else if name = "drawCircle".toList then
      let (argVals, s) := genExprList args s
      (result, emit { opcode := .DRAW_CIRCLE, operands := argVals, result := result } s)
    else if name = "display".toList then
      (result, emit { opcode := .PRESENT, result := result } s)
    else if name = "quit".toList then
      (result, emit { opcode := .CALL, label := "quit".toList, result := result } s)
    else if name = "isKeyDown".toList then
      match args with
      | [] => (result, emit { opcode := .CALL, label := "isKeyDown".toList, result := result } s)
      | a :: _ =>
        let (keyVal, s) := genExpr a s
        (result, emit { opcode := .CALL, label := "isKeyDown".toList,
                        operands := [keyVal], result := result } s)
    else if name = "updateInput".toList then
      (result, emit { opcode := .CALL, label := "updateInput".toList, result := result } s)
    else
      let (argVals, s) := genExprList args s
      (result, emit { opcode := .CALL, label := name, operands := argVals, result := result } s)
  | .assign name value, s =>
    let (v, s) := genExpr value s
    let (var, s) :=
      match s.symbolTable.find? (fun kv => kv.fst = name) with
      | some kv => (kv.snd, s)
      | none =>
        let var : IRValue := { ty := .LOCAL, name := name }
        (var, { s with symbolTable := setAssoc s.symbolTable name var })
    (var, emit { opcode := .STORE, operands := [v], result := var } s)
  | .arrayAccess arr idx, s =>
    let (av, s) := genExpr arr s
    let (iv, s) := genExpr idx s
    let (result, s) := createTemp s
    (result, emit { opcode := .LOAD, operands := [av, iv], result := result } s)
  | .inputCall prompt, s =>
    let (result, s) := createTemp s
    let promptText : Str :=
      match prompt with
      | some (.lit ty v) => if ty = .STRING then v else []
      | _ => []
    (result, emit { opcode := .INPUT, result := result, prompt := promptText } s)
  | .keyPressedCall _, s =>
    let (result, s) := createTemp s
    (result, emit { opcode := .KEY_PRESSED, result := result } s)

/-- Argument lowering loop of `visitFunctionCall`. -/
def genExprList : List Expr → GSt → List IRValue × GSt
  | [], s => ([], s)
  | e :: es, s =>
    let (v, s) := genExpr e s
    let (vs, s) := genExprList es s
    (v :: vs, s)

end

mutual

/-- `IRGenerator::visitStatement` and the specific statement visitors. -/
def genStmt : Stmt → GSt → GSt
  | .block ss, s => genStmtList ss s
  | .ret (some e), s =>
    let (val, s) := genExpr e s
    emit { opcode := .RET, operands := [val] } s
  | .ret none, s =>
    emit { opcode := .RET } s
  | .ifS cond thenB elseB, s =>
    let (condV, s) := genExpr cond s
    let (_thenLabel, s) := createLabel s
    let (elseLabel, s) := createLabel s
    let (endLabel, s) := createLabel s
    let s := emit { opcode := .JZ, operands := [condV], label := elseLabel } s
    let s := emit { opcode := .LABEL, label := _thenLabel } s
    let s := genStmt thenB s
    let s := emit { opcode := .JMP, label := endLabel } s
    let s := emit { opcode := .LABEL, label := elseLabel } s
    let s := match elseB with
             | some e => genStmt e s
             | none => s
    emit { opcode := .LABEL, label := endLabel } s
  | .whileS cond body, s =>
    let (loopLabel, s) := createLabel s
    let (endLabel, s) := createLabel s
    let s := emit { opcode := .LABEL, label := loopLabel } s
    let (condV, s) := genExpr cond s
    let s := emit { opcode := .JZ, operands := [condV], label := endLabel } s
    let s := genStmt body s
    let s := emit { opcode := .JMP, label := loopLabel } s
    emit { opcode := .LABEL, label := endLabel } s
  | .forS init cond incr body, s =>
    let s := match init with
             | some i => genStmt i s
             | none => s
    let (loopLabel, s) := createLabel s
    let (endLabel, s) := createLabel s
    let s := emit { opcode := .LABEL, label := loopLabel } s
    let s := match cond with
             | some c =>
               let (condV, s) := genExpr c s
               emit { opcode := .JZ, operands := [condV], label := endLabel } s
             | none => s
    let s := genStmt body s
    let s := match incr with
             | some e => (genExpr e s).2
             | none => s
    let s := emit { opcode := .JMP, label := loopLabel } s
    emit { opcode := .LABEL, label := endLabel } s
  | .varDecl name _ty init, s =>
    let var : IRValue := { ty := .LOCAL, name := name }
    let s := { s with symbolTable := setAssoc s.symbolTable name var }
    (match init with
     | some e =>
       let (val, s) := genExpr e s
       emit { opcode := .STORE, operands := [val], result := var } s
     | none => s)
  | .exprStmt e, s => (genExpr e s).2
  | .printStmt e, s =>
    let (val, s) := genExpr e s
    emit { opcode := .PRINT, operands := [val] } s

/-- Loop of `IRGenerator::visitBlockStatement`. -/
def genStmtList : List Stmt → GSt → GSt
  | [], s => s
  | st :: sts, s => genStmtList sts (genStmt st s)

end

/-- `IRGenerator::visitFunction`: clear the per-function symbol table and the
temp counter (the label counter is *not* cleared), register the parameters,
lower the body, and record the finished `IRFunction`. -/
def visitFunction (f : FunctionDecl) (s : GSt) : GSt :=
  let s := { s with cur := [], symbolTable := [], tempCounter := 0 }
  let s := f.parameters.foldl
    (fun s p => { s with symbolTable := setAssoc s.symbolTable p.snd ⟨.LOCAL, p.snd, -1⟩ }) s
  let s := genStmt f.body s
  { s with funcs := s.funcs ++ [⟨f.name, f.returnType, f.parameters, s.cur⟩] }

/-- `IRGenerator::visitProgram`. -/
def visitProgram (fs : List FunctionDecl) (s : GSt) : GSt :=
  fs.foldl (fun s f => visitFunction f s) s

/-- `IRGenerator::generate` (state form): the generator state after processing
the whole program, starting from the freshly constructed generator. -/
def generateSt (p : Program) : GSt :=
  visitProgram p.functions {}

/-- `IRGenerator::generate`. -/
def generate (p : Program) : IRProgram :=
  ⟨(generateSt p).funcs, []⟩

end IRGen

/-! ### Semantic analyzer (`scematic.h`, `scematic.cpp`) -/

namespace Sem

/-- A declared symbol (`scematic.h`). -/
structure Symbol where
  name : Str
  ty : Str
  isFunction : Bool
  isDeclared : Bool
  deriving DecidableEq, Repr

/-- Analyzer state: the scope chain (innermost first; the last entry is the
global scope), the diagnostic sink, the process-wide static `errors` flag,
and `currentFunctionReturnType`. -/
structure ASt where
  scopes : List (List (Str × Symbol)) := [[]]
  msgs : List Str := []
  errors : Bool := false
  currentFunctionReturnType : Str := "void".toList
  deriving DecidableEq, Repr

/-- `SemanticAnalyzer::reportError`: write to the sink and set the static flag
(nothing ever clears it). -/
def reportError (msg : Str) (st : ASt) : ASt :=
  { st with msgs := st.msgs ++ [msg], errors := true }

/-- `Scope::declare`: raises on a duplicate in the *local* scope. -/
def declare (name : Str) (sym : Symbol) (st : ASt) : Except Str ASt :=
  match st.scopes with
  | [] => .ok st
  | top :: rest =>
    if (top.find? (fun kv => kv.fst = name)).isSome then
      .error ("Symbol '".toList ++ name ++ "' already declared in current scope".toList)
    else .ok { st with scopes := (top ++ [(name, sym)]) :: rest }

/-- `declare` wrapped in the `try`/`catch` used at every call site. -/
def declareCaught (name : Str) (sym : Symbol) (st : ASt) : ASt :=
  match declare name sym st with
  | .ok st' => st'
  | .error e => reportError e st

/-- `Scope::lookup`: search the scope chain outward. -/
def lookupSym (name : Str) : List (List (Str × Symbol)) → Option Symbol
  | [] => none
  | top :: rest =>
    match top.find? (fun kv => kv.fst = name) with
    | some kv => some kv.snd
    | none => lookupSym name rest

/-- `SemanticAnalyzer::enterScope`. -/
def enterScope (st : ASt) : ASt :=
  { st with scopes := [] :: st.scopes }

/-- `SemanticAnalyzer::exitScope` (never pops the global scope). -/
def exitScope (st : ASt) : ASt :=
  match st.scopes with
  | top :: rest => if rest = [] then { st with scopes := top :: rest }
                   else { st with scopes := rest }
  | [] => st

/-- `SemanticAnalyzer::isCompatibleType`. -/
def isCompatibleType (fromTy toTy : Str) : Bool :=
  if fromTy = toTy then true
  else if (fromTy = "int".toList || fromTy = "float".toList) &&
          (toTy = "int".toList || toTy = "float".toList) then true
  else if (fromTy = "int".toList || fromTy = "string".toList) &&
          (toTy = "int".toList || toTy = "string".toList) then true
  else if (fromTy = "bool".toList || fromTy = "int".toList) &&
          (toTy = "bool".toList || toTy = "int".toList) then true
  else false

/-- `SemanticAnalyzer::getCommonType`. -/
def getCommonType (ty1 ty2 : Str) : Str :=
  if ty1 = ty2 then ty1
  else if ty1 = "float".toList || ty2 = "float".toList then "float".toList
  else ty1

/-- `SemanticAnalyzer::analyzeLiteral`: only `INTEGER`, `FLOAT` and `STRING`
map to a type; every other literal kind (including the boolean literals
`TRUE_LIT` / `FALSE_LIT`) falls into the `default:` case and yields `void`. -/
def analyzeLiteral (ty : TokenType) : Str :=
  if ty = .INTEGER then "int".toList
  else if ty = .FLOAT then "float".toList
  else if ty = .STRING then "string".toList
  else "void".toList

mutual

/-- `SemanticAnalyzer::analyzeExpression` and the expression analyzers;
returns the textual type together with the updated state. -/
def analyzeExpr : Expr → ASt → Str × ASt
  | .binop l op r, st =>
    let (leftType, st) := analyzeExpr l st
    let (rightType, st) := analyzeExpr r st
    let ty :=
      if op = .PLUS || op = .MINUS || op = .STAR || op = .SLASH || op = .PERCENT then
        getCommonType leftType rightType
      else if op = .EQUAL || op = .NOT_EQUAL || op = .LESS || op = .GREATER ||
              op = .LESS_EQUAL || op = .GREATER_EQUAL then "int".toList
      else if op = .AND || op = .OR then "int".toList
      else if op = .COMMA then rightType
      else "void".toList
    (ty, st)
  | .unop op e, st =>
    let (operandType, st) := analyzeExpr e st
    if op = .MINUS || op = .NOT then (operandType, st) else ("void".toList, st)
  | .lit ty _, st => (analyzeLiteral ty, st)
  | .ident name, st =>
    (match lookupSym name st.scopes with
     | none => ("void".toList, reportError ("Undefined identifier: ".toList ++ name) st)
     | some sym => (sym.ty, st))
  | .call name args, st =>
    (match lookupSym name st.scopes with
     | none => ("void".toList, reportError ("Undefined function: ".toList ++ name) st)
     | some sym =>
       if !sym.isFunction then
         ("void".toList, reportError ("'".toList ++ name ++ "' is not a function".toList) st)
       else
         (sym.ty, analyzeExprList args st))
  | .assign name value, st =>
    (match lookupSym name st.scopes with
     | none => ("void".toList, reportError ("Undefined variable: ".toList ++ name) st)
     | some sym =>
       let (exprType, st) := analyzeExpr value st
       if !isCompatibleType exprType sym.ty then
         (sym.ty, reportError ("Assignment type mismatch: '".toList ++ name ++
           "' expects ".toList ++ sym.ty ++ ", got ".toList ++ exprType) st)
       else (sym.ty, st))
  | .arrayAccess arr idx, st =>
    let (arrayType, st) := analyzeExpr arr st
    let (_indexType, st) := analyzeExpr idx st
    (arrayType, st)
  | .inputCall _, st => ("void".toList, st)
  | .keyPressedCall _, st => ("void".toList, st)

/-- Argument loop of `SemanticAnalyzer::analyzeFunctionCall`. -/
def analyzeExprList : List Expr → ASt → ASt
  | [], st => st
  | e :: es, st => analyzeExprList es (analyzeExpr e st).2

end

mutual

/-- `SemanticAnalyzer::analyzeStatement` and the statement analyzers.  Note
that `PrintStatement` matches none of the `dynamic_pointer_cast` branches in
the C++, so a print statement (and its expression) is not analyzed at all. -/
def analyzeStmt : Stmt → ASt → ASt
  | .block ss, st => analyzeStmtList ss st
  | .ret none, st => st
  | .ret (some e), st =>
    let (exprType, st) := analyzeExpr e st
    if !isCompatibleType exprType st.currentFunctionReturnType then
      reportError ("Return type mismatch: expected ".toList ++
        st.currentFunctionReturnType ++ ", got ".toList ++ exprType) st
    else st
  | .ifS cond thenB elseB, st =>
    let (_condType, st) := analyzeExpr cond st
    let st := analyzeStmt thenB st
    (match elseB with
     | some e => analyzeStmt e st
     | none => st)
  | .whileS cond body, st =>
    let (_condType, st) := analyzeExpr cond st
    analyzeStmt body st
  | .forS init cond incr body, st =>
    let st := enterScope st
    let st := match init with
              | some i => analyzeStmt i st
              | none => st
    let st := match cond with
              | some c => (analyzeExpr c st).2
              | none => st
    let st := match incr with
              | some e => (analyzeExpr e st).2
              | none => st
    let st := analyzeStmt body st
    exitScope st
  | .varDecl name ty init, st =>
    let st := match init with
              | some e =>
                let (exprType, st) := analyzeExpr e st
                if !isCompatibleType exprType ty then
                  reportError ("Variable initialization type mismatch: expected ".toList ++
                    ty ++ ", got ".toList ++ exprType) st
                else st
              | none => st
    declareCaught name ⟨name, ty, false, true⟩ st
  | .exprStmt e, st => (analyzeExpr e st).2
  | .printStmt _, st => st

/-- Loop of `SemanticAnalyzer::analyzeBlockStatement` (no new scope). -/
def analyzeStmtList : List Stmt → ASt → ASt
  | [], st => st
  | s :: ss, st => analyzeStmtList ss (analyzeStmt s st)

end

/-- `SemanticAnalyzer::analyzeFunction`. -/
def analyzeFunction (f : FunctionDecl) (st : ASt) : ASt :=
  let st := { st with currentFunctionReturnType := f.returnType }
  let st := enterScope st
  let st := f.parameters.foldl
    (fun st p => declareCaught p.snd ⟨p.snd, p.fst, false, true⟩ st) st
  let st := analyzeStmt f.body st
  exitScope st

/-- `SemanticAnalyzer::analyzeProgram`: declare all functions in the global
scope, then analyze each body. -/
def analyzeProgram (p : Program) (st : ASt) : ASt :=
  let st := p.functions.foldl
    (fun st f => declareCaught f.name ⟨f.name, f.returnType, true, true⟩ st) st
  p.functions.foldl (fun st f => analyzeFunction f st) st

/-- `SemanticAnalyzer::analyze` for a fresh analyzer instance whose static
`errors` flag currently holds `errors0` (the flag is process-wide and is
never reset between runs). -/
def analyze (p : Program) (errors0 : Bool) : ASt :=
  analyzeProgram p { errors := errors0 }

/-- `SemanticAnalyzer::hasErrors`. -/
def hasErrors (st : ASt) : Bool :=
  st.errors

end Sem

/-! ### Interpreter (`main.cpp`) -/

namespace Interp

/-- The runtime `Value` variant (`std::variant<int, double, std::string,
bool>`); a value-initialized variant holds the first alternative, `int 0`. -/
inductive Value where
  | int (i : Int)
  | float (f : Rat)
  | str (s : Str)
  | bool (b : Bool)
  deriving DecidableEq, Repr

/-- `std::map<std::string, Value>::operator[]` read: a missing key
default-constructs the mapped value, so reading an absent slot yields
`int 0`. -/
def getTemp (temps : List (Str × Value)) (k : Str) : Value :=
  match temps.find? (fun kv => kv.fst = k) with
  | some kv => kv.snd
  | none => .int 0

/-- `temps[k] = v` (insert or overwrite). -/
def setTemp (temps : List (Str × Value)) (k : Str) (v : Value) : List (Str × Value) :=
  match temps with
  | [] => [(k, v)]
  | (k', v') :: rest => if k' = k then (k, v) :: rest else (k', v') :: setTemp rest k v

/-- `static_cast<int>` on a double: truncation toward zero. -/
def truncRat (f : Rat) : Int :=
  if 0 ≤ f then f.floor else f.ceil

/-- `std::stoi`: skip `isspace` characters, read an optional sign and at
least one decimal digit; a partial parse succeeds with the digits consumed,
no digits raises `std::invalid_argument("stoi")`. -/
def stoi (s : Str) : Except Str Int :=
  let s1 := s.dropWhile (fun ch => isSpaceC ch)
  let signAndRest : Bool × Str :=
    match s1 with
    | '-' :: rest => (true, rest)
    | '+' :: rest => (false, rest)
    | _ => (false, s1)
  let digits := signAndRest.snd.takeWhile (fun ch => isDigitC ch)
  if digits = [] then .error "stoi".toList
  else
    let n := digits.foldl (fun acc ch => acc * 10 + (ch.toNat - '0'.toNat)) 0
    .ok (if signAndRest.fst then -(n : Int) else (n : Int))

/-- `std::stod`, restricted to the decimal forms this toolchain produces
(optional sign, digits, optional fractional digits; no exponent). -/
def stod (s : Str) : Except Str Rat :=
  let s1 := s.dropWhile (fun ch => isSpaceC ch)
  let signAndRest : Bool × Str :=
    match s1 with
    | '-' :: rest => (true, rest)
    | '+' :: rest => (false, rest)
    | _ => (false, s1)
  let s2 := signAndRest.snd
  let intDigits := s2.takeWhile (fun ch => isDigitC ch)
  let s3 := s2.drop intDigits.length
  let fracDigits : Str :=
    match s3 with
    | '.' :: rest => rest.takeWhile (fun ch => isDigitC ch)
    | _ => []
  if intDigits = [] && fracDigits = [] then .error "stod".toList
  else
    let ip : Nat := intDigits.foldl (fun acc ch => acc * 10 + (ch.toNat - '0'.toNat)) 0
    let fp : Nat := fracDigits.foldl (fun acc ch => acc * 10 + (ch.toNat - '0'.toNat)) 0
    let mag : Rat := (ip : Rat) + (fp : Rat) / ((10 : Rat) ^ fracDigits.length)
    .ok (if signAndRest.fst then -mag else mag)

/-- Zero-padding for the six fractional digits of `%f`. -/
def pad6 (n : Nat) : Str :=
  let d := natToStr n
  List.replicate (6 - d.length) '0' ++ d

/-- `std::to_string(double)`: `%f` with six fractional digits (the rounding
of the binary double is approximated by rational rounding; no claim
exercises this formatting). -/
def ratToFixed6 (f : Rat) : Str :=
  let sign : Str := if f < 0 then ['-'] else []
  let a : Rat := |f|
  let scaled : Int := (a * 1000000 + 1/2).floor
  sign ++ intToStr (scaled.tdiv 1000000) ++ '.' :: pad6 (scaled.tmod 1000000).natAbs

/-- `std::cout << double` (`%g`-style, approximated: integral doubles print
with no decimal point, others as trimmed fixed-point; no claim exercises
this formatting). -/
def printDouble (f : Rat) : Str :=
  if f.den = 1 then intToStr f.num
  else
    let s := ratToFixed6 f
    let t := (s.reverse.dropWhile (fun ch => ch = '0')).reverse
    match t.reverse with
    | '.' :: r => r.reverse
    | _ => t

/-- The `toInt` lambda shared by the `ADD`/`SUB`/`MUL`/`DIV`/`MOD` cases of
`interpretIR`: an integer passes through, a double is truncated toward zero
(`static_cast<int>`), a string goes through `std::stoi`, and the remaining
alternative (`bool`) raises `Cannot convert to int`. -/
def toInt (v : Value) : Except Str Int :=
  match v with
  | .int i => .ok i
  | .float f => .ok (truncRat f)
  | .str s => stoi s
  | .bool _ => .error "Cannot convert to int".toList

/-- The defaulting `toInt` lambda of the graphics cases (`SCREEN`, `DRAW_*`,
`CLEAR_SCREEN`): a parse failure or a `bool` yields 0 instead of raising. -/
def toIntG (v : Value) : Int :=
  match v with
  | .int i => i
  | .float f => truncRat f
  | .str s => (match stoi s with | .ok i => i | .error _ => 0)
  | .bool _ => 0

/-- The `toString` lambda of the `SCREEN` case. -/
def toStringG (v : Value) : Str :=
  match v with
  | .str s => s
  | .int i => intToStr i
  | .float f => ratToFixed6 f
  | .bool _ => []

/-- The display formatting of the `CONCAT` case (`std::visit`). -/
def displayValue (v : Value) : Str :=
  match v with
  | .int i => intToStr i
  | .float f => ratToFixed6 f
  | .bool b => if b then "true".toList else "false".toList
  | .str s => s

/-- The stdout formatting of the `PRINT` case. -/
def printValue (v : Value) : Str :=
  match v with
  | .int i => intToStr i
  | .float f => printDouble f
  | .bool b => if b then "true".toList else "false".toList
  | .str s => s

/-- Strict lexicographic order on `std::string`. -/
def lexLt : Str → Str → Bool
  | [], [] => false
  | [], _ :: _ => true
  | _ :: _, [] => false
  | a :: as, b :: bs => a < b || (a = b && lexLt as bs)

/-- The comparison lambda shared (up to the operator) by
`LT`/`GT`/`LE`/`GE`/`EQ`/`NE`: int/int compares as int, any int/double mix
widens to double, string/string compares lexicographically, anything else
(a `bool`, or a string/number mix) raises `Invalid types for <OP>`. -/
def cmpValues (opName : Str) (intCmp : Int → Int → Bool) (ratCmp : Rat → Rat → Bool)
    (strCmp : Str → Str → Bool) (a b : Value) : Except Str Int :=
  match a, b with
  | .int x, .int y => .ok (if intCmp x y then 1 else 0)
  | .int x, .float y => .ok (if ratCmp (x : Rat) y then 1 else 0)
  | .float x, .int y => .ok (if ratCmp x (y : Rat) then 1 else 0)
  | .float x, .float y => .ok (if ratCmp x y then 1 else 0)
  | .str x, .str y => .ok (if strCmp x y then 1 else 0)
  | _, _ => .error ("Invalid types for ".toList ++ opName)

/-- Interpreter state beyond the instruction pointer: the `temps` value map
of the current `main` run, the process console streams, the modelled stdin,
and the global graphics handle `g_graphics` (the SDL side effects themselves
are external; `shouldCloseFlag` stands for the window's "should close" state,
which only the external event system can set). -/
structure ISt where
  temps : List (Str × Value) := []
  output : Str := []
  errOut : Str := []
  stdinLines : List Str := []
  keys : List Char := []
  graphics : Bool := false
  shouldCloseFlag : Bool := false
  deriving DecidableEq, Repr

/-- How a `main` run ends. -/
inductive ExecEnd where
  | normal
  | thrown (msg : Str)
  | exited (code : Nat)
  deriving DecidableEq, Repr

/-- Label prescan of `interpretIR`: `labels[instr.label] = i` for every
`LABEL` instruction (later duplicates overwrite). -/
def setLabel (m : List (Str × Nat)) (k : Str) (v : Nat) : List (Str × Nat) :=
  match m with
  | [] => [(k, v)]
  | (k', v') :: rest => if k' = k then (k, v) :: rest else (k', v') :: setLabel rest k v

/-- Build the label map from an instruction list. -/
def prescanLabels : List IRInstruction → Nat → List (Str × Nat) → List (Str × Nat)
  | [], _, m => m
  | i :: is, idx, m =>
    if i.opcode = .LABEL then prescanLabels is (idx + 1) (setLabel m i.label idx)
    else prescanLabels is (idx + 1) m

/-- `labels[name]` (a missing key default-constructs 0, as with `std::map`). -/
def getLabel (m : List (Str × Nat)) (k : Str) : Nat :=
  match m.find? (fun kv => kv.fst = k) with
  | some kv => kv.snd
  | none => 0

/-- Operand access `instr.operands[i]` (the generated IR always provides the
operands each case reads). -/
def opnd (i : IRInstruction) (n : Nat) : IRValue :=
  i.operands.getD n {}

/-- The outcome of one dispatch-loop iteration. -/
inductive StepOut where
  | cont (ip : Nat) (st : ISt)
  | halt (st : ISt) (e : ExecEnd)
  deriving DecidableEq, Repr

/-- One iteration of the dispatch loop of `interpretIR`: either the run halts
(normal end of the instruction list, a thrown exception, an `exit`, or the
`PRESENT` window-close break) or control continues at a next instruction
pointer.  Each branch is the corresponding `if (instr.opcode == …)` case of
`main.cpp`; opcodes with no case (`RET`, `NEG`, `NOT`, `AND`, `OR`, `JNZ`,
`LOAD`, `LOAD_GLOBAL`, `STORE_GLOBAL`, `NOP`, and `CALL` with an unrecognized
label) fall through the whole chain and only get the final `ip++`. -/
def step (instrs : List IRInstruction) (labels : List (Str × Nat))
    (ip : Nat) (st : ISt) : StepOut :=
  if hip : ip < instrs.length then
    let i := instrs.get ⟨ip, hip⟩
    match i.opcode with
  | .LOAD_INT =>
    (match stoi (opnd i 0).name with
     | .error e => .halt st (.thrown e)
     | .ok v =>
       .cont (ip + 1)
         { st with temps := setTemp st.temps i.result.toStr (.int v) })
  | .LOAD_FLOAT =>
    (match stod (opnd i 0).name with
     | .error e => .halt st (.thrown e)
     | .ok v =>
       .cont (ip + 1)
         { st with temps := setTemp st.temps i.result.toStr (.float v) })
  | .LOAD_STRING =>
    .cont (ip + 1)
      { st with temps := setTemp st.temps i.result.toStr (.str (opnd i 0).name) }
  | .ADD =>
    (match toInt (getTemp st.temps (opnd i 0).toStr),
           toInt (getTemp st.temps (opnd i 1).toStr) with
     | .error e, _ => .halt st (.thrown e)
     | _, .error e => .halt st (.thrown e)
     | .ok x, .ok y =>
       .cont (ip + 1)
         { st with temps := setTemp st.temps i.result.toStr (.int (x + y)) })
  | .SUB =>
    (match toInt (getTemp st.temps (opnd i 0).toStr),
           toInt (getTemp st.temps (opnd i 1).toStr) with
     | .error e, _ => .halt st (.thrown e)
     | _, .error e => .halt st (.thrown e)
     | .ok x, .ok y =>
       .cont (ip + 1)
         { st with temps := setTemp st.temps i.result.toStr (.int (x - y)) })
  | .MUL =>
    (match toInt (getTemp st.temps (opnd i 0).toStr),
           toInt (getTemp st.temps (opnd i 1).toStr) with
     | .error e, _ => .halt st (.thrown e)
     | _, .error e => .halt st (.thrown e)
     | .ok x, .ok y =>
       .cont (ip + 1)
         { st with temps := setTemp st.temps i.result.toStr (.int (x * y)) })
  | .DIV =>
    (match toInt (getTemp st.temps (opnd i 1).toStr) with
     | .error e => .halt st (.thrown e)
     | .ok divisor =>
       if divisor = 0 then .halt st (.thrown "Division by zero".toList)
       else
         match toInt (getTemp st.temps (opnd i 0).toStr) with
         | .error e => .halt st (.thrown e)
         | .ok x =>
           .cont (ip + 1)
             { st with temps := setTemp st.temps i.result.toStr (.int (x.tdiv divisor)) })
  | .MOD =>
    (match toInt (getTemp st.temps (opnd i 1).toStr) with
     | .error e => .halt st (.thrown e)
     | .ok divisor =>
       if divisor = 0 then .halt st (.thrown "Division by zero".toList)
       else
         match toInt (getTemp st.temps (opnd i 0).toStr) with
         | .error e => .halt st (.thrown e)
         | .ok x =>
           .cont (ip + 1)
             { st with temps := setTemp st.temps i.result.toStr (.int (x.tmod divisor)) })
  | .CONCAT =>
    let a := getTemp st.temps (opnd i 0).toStr
    let b := getTemp st.temps (opnd i 1).toStr
    .cont (ip + 1)
      { st with temps := setTemp st.temps i.result.toStr (.str (displayValue a ++ displayValue b)) }
  | .PRINT =>
    let v := getTemp st.temps (opnd i 0).toStr
    .cont (ip + 1) { st with output := st.output ++ printValue v }
  | .LT =>
    (match cmpValues "LT".toList (fun x y => x < y) (fun x y => x < y) lexLt
        (getTemp st.temps (opnd i 0).toStr) (getTemp st.temps (opnd i 1).toStr) with
     | .error e => .halt st (.thrown e)
     | .ok r =>
       .cont (ip + 1)
         { st with temps := setTemp st.temps i.result.toStr (.int r) })
  | .GT =>
    (match cmpValues "GT".toList (fun x y => y < x) (fun x y => y < x)
        (fun x y => lexLt y x)
        (getTemp st.temps (opnd i 0).toStr) (getTemp st.temps (opnd i 1).toStr) with
     | .error e => .halt st (.thrown e)
     | .ok r =>
       .cont (ip + 1)
         { st with temps := setTemp st.temps i.result.toStr (.int r) })
  | .LE =>
    (match cmpValues "LE".toList (fun x y => x ≤ y) (fun x y => x ≤ y)
        (fun x y => !lexLt y x)
        (getTemp st.temps (opnd i 0).toStr) (getTemp st.temps (opnd i 1).toStr) with
     | .error e => .halt st (.thrown e)
     | .ok r =>
       .cont (ip + 1)
         { st with temps := setTemp st.temps i.result.toStr (.int r) })
  | .GE =>
    (match cmpValues "GE".toList (fun x y => y ≤ x) (fun x y => y ≤ x)
        (fun x y => !lexLt x y)
        (getTemp st.temps (opnd i 0).toStr) (getTemp st.temps (opnd i 1).toStr) with
     | .error e => .halt st (.thrown e)
     | .ok r =>
       .cont (ip + 1)
         { st with temps := setTemp st.temps i.result.toStr (.int r) })
  | .EQ =>
    (match cmpValues "EQ".toList (fun x y => x = y) (fun x y => x = y)
        (fun x y => x = y)
        (getTemp st.temps (opnd i 0).toStr) (getTemp st.temps (opnd i 1).toStr) with
     | .error e => .halt st (.thrown e)
     | .ok r =>
       .cont (ip + 1)
         { st with temps := setTemp st.temps i.result.toStr (.int r) })
  | .NE =>
    (match cmpValues "NE".toList (fun x y => x ≠ y) (fun x y => x ≠ y)
        (fun x y => x ≠ y)
        (getTemp st.temps (opnd i 0).toStr) (getTemp st.temps (opnd i 1).toStr) with
     | .error e => .halt st (.thrown e)
     | .ok r =>
       .cont (ip + 1)
         { st with temps := setTemp st.temps i.result.toStr (.int r) })
  | .JZ =>
    (match getTemp st.temps (opnd i 0).toStr with
     | .int cond =>
       if cond = 0 then .cont (getLabel labels i.label) st
       else .cont (ip + 1) st
     | _ => .halt st (.thrown "std::get: wrong index for variant".toList))
  | .JMP => .cont (getLabel labels i.label) st
  | .STORE =>
    .cont (ip + 1)
      { st with temps := setTemp st.temps i.result.toStr (getTemp st.temps (opnd i 0).toStr) }
  | .INPUT =>
    let st := if i.prompt ≠ [] then { st with output := st.output ++ i.prompt } else st
    let lineAndRest : Str × List Str :=
      match st.stdinLines with
      | line :: rest => (line, rest)
      | [] => ([], [])
    .cont (ip + 1)
      { st with stdinLines := lineAndRest.snd,
                temps := setTemp st.temps i.result.toStr (.str lineAndRest.fst) }
  | .KEY_PRESSED =>
    let keyAndRest : Char × List Char :=
      match st.keys with
      | k :: rest => (k, rest)
      | [] => ('\x00', [])
    .cont (ip + 1)
      { st with keys := keyAndRest.snd,
                temps := setTemp st.temps i.result.toStr (.str [keyAndRest.fst]) }
  | .SCREEN =>
    let st :=
      if i.operands.length ≥ 3 then
        let w := toIntG (getTemp st.temps (opnd i 0).toStr)
        let h := toIntG (getTemp st.temps (opnd i 1).toStr)
        let title := toStringG (getTemp st.temps (opnd i 2).toStr)
        { st with graphics := true,
                  output := st.output ++ "\x1b[2J\x1b[1;1H".toList ++
                    "Graphics window created: ".toList ++ intToStr w ++ ['x'] ++
                    intToStr h ++ " - ".toList ++ title ++ ['\n'] }
      else st
    .cont (ip + 1)
      { st with temps := setTemp st.temps i.result.toStr (.int 1) }
  | .DRAW_PIXEL =>
    let st :=
      if st.graphics && i.operands.length ≥ 5 then
        { st with temps := setTemp st.temps i.result.toStr (.int 1) }
      else st
    .cont (ip + 1) st
  | .DRAW_RECT =>
    let st :=
      if st.graphics && i.operands.length ≥ 8 then
        { st with temps := setTemp st.temps i.result.toStr (.int 1) }
      else st
    .cont (ip + 1) st
  | .DRAW_LINE =>
    let st :=
      if st.graphics && i.operands.length ≥ 7 then
        { st with temps := setTemp st.temps i.result.toStr (.int 1) }
      else st
    .cont (ip + 1) st
  | .DRAW_CIRCLE =>
    let st :=
      if st.graphics && i.operands.length ≥ 7 then
        { st with temps := setTemp st.temps i.result.toStr (.int 1) }
      else st
    .cont (ip + 1) st
  | .CLEAR_SCREEN =>
    let st :=
      if st.graphics && i.operands.length ≥ 3 then
        { st with temps := setTemp st.temps i.result.toStr (.int 1) }
      else st
    .cont (ip + 1) st
  | .PRESENT =>
    if st.graphics && st.shouldCloseFlag then
      .halt { st with graphics := false } .normal
    else
      .cont (ip + 1)
        { st with temps := setTemp st.temps i.result.toStr (.int 1) }
  | .CALL =>
    if i.label = "quit".toList then
      .halt { st with graphics := false } (.exited 0)
    else if i.label = "isKeyDown".toList then
      .cont (ip + 1)
        { st with temps := setTemp st.temps i.result.toStr (.int 0) }
    else if i.label = "updateInput".toList then
      .cont (ip + 1)
        { st with temps := setTemp st.temps i.result.toStr (.int 1) }
    else
      .cont (ip + 1) st
  | _ => .cont (ip + 1) st
else .halt st .normal

/-- The dispatch loop of `interpretIR` for one function, fueled: `none` means
the fuel ran out, `some (st, e)` a completed run. -/
def execIns (instrs : List IRInstruction) (labels : List (Str × Nat)) :
    Nat → Nat → ISt → Option (ISt × ExecEnd)
  | 0, _, _ => none
  | fuel + 1, ip, st =>
    match step instrs labels ip st with
    | .halt st' e => some (st', e)
    | .cont ip' st' => execIns instrs labels fuel ip' st'


/-- The outer loop of `interpretIR`: every function named `main` is run (with
fresh `temps` and a fresh label map); a thrown error or an `exit`
stops everything. -/
def runFuncs : List IRFunction → ISt → Nat → Option (ISt × ExecEnd)
  | [], st, _ => some (st, .normal)
  | f :: fs, st, fuel =>
    if f.name = "main".toList then
      let labels := prescanLabels f.instructions 0 []
      match execIns f.instructions labels fuel 0 { st with temps := [] } with
      | none => none
      | some (st', .normal) => runFuncs fs st' fuel
      | some (st', e) => some (st', e)
    else runFuncs fs st fuel

/-- `interpretIR`. -/
def interpretIR (ir : IRProgram) (st : ISt) (fuel : Nat) : Option (ISt × ExecEnd) :=
  runFuncs ir.functions st fuel

end Interp

/-- The `main` entry of `main.cpp` on an already-read source string: lex,
parse, generate IR, interpret.  Any exception is caught, printed to stderr as
`Error: <msg>` and turns into exit code 1; `quit()` exits 0 directly.
The result is `(exit code, stdout, stderr)`, or `none` if the interpreter
fuel ran out. -/
def zppMain (src : Str) (stdinLines : List Str) (keys : List Char) (fuel : Nat) :
    Option (Nat × Str × Str) :=
  let tokens := Lexer.tokenize src
  match Parser.parse tokens with
  | .error e => some (1, [], "Error: ".toList ++ e ++ ['\n'])
  | .ok prog =>
    let ir := IRGen.generate prog
    match Interp.interpretIR ir { stdinLines := stdinLines, keys := keys } fuel with
    | none => none
    | some (st, .normal) => some (0, st.output, st.errOut)
    | some (st, .thrown msg) =>
      some (1, st.output, st.errOut ++ "Error: ".toList ++ msg ++ ['\n'])
    | some (st, .exited code) => some (code, st.output, st.errOut)

/-! ### Shared lemmas -/

namespace Interp

/-- More fuel never changes a completed run of the dispatch loop. -/
theorem execIns_mono (instrs : List IRInstruction) (labels : List (Str × Nat)) :
    ∀ (fuel ip : Nat) (st : ISt) (r : ISt × ExecEnd),
      execIns instrs labels fuel ip st = some r →
      ∀ m, fuel ≤ m → execIns instrs labels m ip st = some r := by
  intro fuel
  induction fuel with
  | zero => intro ip st r h; simp [execIns] at h
  | succ n ih =>
    intro ip st r h m hm
    obtain ⟨m', rfl⟩ : ∃ m', m = m' + 1 := ⟨m - 1, by omega⟩
    rw [execIns] at h ⊢
    cases hstep : step instrs labels ip st with
    | halt st' e => rw [hstep] at h; exact h
    | cont ip' st' =>
      rw [hstep] at h
      exact ih ip' st' r h m' (by omega)

/-- More fuel never changes a completed run of the function loop. -/
theorem runFuncs_mono :
    ∀ (fs : List IRFunction) (st : ISt) (fuel : Nat) (r : ISt × ExecEnd),
      runFuncs fs st fuel = some r →
      ∀ m, fuel ≤ m → runFuncs fs st m = some r := by
  intro fs
  induction fs with
  | nil => intro st fuel r h m hm; simpa [runFuncs] using h
  | cons f fs ih =>
    intro st fuel r h m hm
    rw [runFuncs] at h ⊢
    by_cases hname : f.name = "main".toList
    · simp only [hname, if_true] at h ⊢
      cases hx : execIns f.instructions (prescanLabels f.instructions 0 [])
          fuel 0 { st with temps := [] } with
      | none => rw [hx] at h; exact absurd h (by simp)
      | some p =>
        rw [hx] at h
        rw [execIns_mono _ _ _ _ _ _ hx m hm]
        cases p with
        | mk st' e =>
          cases e with
          | normal => exact ih st' fuel r h m hm
          | thrown msg => exact h
          | exited code => exact h
    · simp only [hname, if_false] at h ⊢
      exact ih st fuel r h m hm

/-- More fuel never changes a completed `interpretIR`. -/
theorem interpretIR_mono (ir : IRProgram) (st : ISt) (fuel : Nat) (r : ISt × ExecEnd)
    (h : interpretIR ir st fuel = some r) (m : Nat) (hm : fuel ≤ m) :
    interpretIR ir st m = some r :=
  runFuncs_mono ir.functions st fuel r h m hm

end Interp

/-- More fuel never changes a completed pipeline run. -/
theorem zppMain_mono (src : Str) (stdinLines : List Str) (keys : List Char)
    (fuel : Nat) (r : Nat × Str × Str) (h : zppMain src stdinLines keys fuel = some r)
    (m : Nat) (hm : fuel ≤ m) : zppMain src stdinLines keys m = some r := by
  rw [zppMain] at h ⊢
  cases hp : Parser.parse (Lexer.tokenize src) with
  | error e => simp only [hp] at h ⊢; exact h
  | ok prog =>
    simp only [hp] at h ⊢
    cases hi : Interp.interpretIR (IRGen.generate prog)
        { stdinLines := stdinLines, keys := keys } fuel with
    | none => rw [hi] at h; exact absurd h (by simp)
    | some p =>
      rw [hi] at h
      rw [Interp.interpretIR_mono _ _ _ _ hi m hm]
      exact h

/-! ### Concrete claim programs -/

/-- The spec's while-loop scenario source. -/
def whileLoopSource : Str :=
  "int main() \x7b int i = 0; while (i < 3) \x7b print(i); i = i + 1; \x7d return 0; \x7d".toList

/-- The spec's division-by-zero scenario source. -/
def divZeroSource : Str :=
  "int main() \x7b int a = 7; int b = 0; return a / b; \x7d".toList

/-- A program with a statement after `return`. -/
def retNoStopSource : Str :=
  "int main() \x7b return 0; print(7); \x7d".toList

/-- A program whose loop condition is `1 && 1`: the loop body prints `1`,
the code after the loop prints `2`. -/
def andBranchSource : Str :=
  "int main() \x7b while (1 && 1) \x7b print(1); \x7d print(2); return 0; \x7d".toList

/-- A program declaring a variable in a nested block and using it after. -/
def blockScopeSource : Str :=
  "int main() \x7b \x7b int x = 5; \x7d return x; \x7d".toList

/-- A program initializing a `bool` variable with the literal `true`. -/
def boolLitSource : Str :=
  "int main() \x7b bool flag = true; return 0; \x7d".toList

/-- The parsed program of a source (empty program on a syntax error). -/
def progOf (src : Str) : Program :=
  match Parser.parse (Lexer.tokenize src) with
  | .ok p => p
  | .error _ => ⟨[]⟩

/-- Whether parsing succeeded. -/
def parseOk (src : Str) : Bool :=
  match Parser.parse (Lexer.tokenize src) with
  | .ok _ => true
  | .error _ => false

/-! ### Definitional equations for the IR generator

The equation lemmas Lean would generate for `genExpr`/`genStmt` are too large
for automation, so the per-constructor equations are stated by hand; each is
proved by `rfl`, so they are definitionally the code. -/

namespace IRGen

theorem genExpr_binop (l : Expr) (op : TokenType) (r : Expr) (s : GSt) :
    genExpr (.binop l op r) s =
      (let (lv, s) := genExpr l s
       let (rv, s) := genExpr r s
       let (result, s) := createTemp s
       let opcode := if op = .OR || op = .COMMA then IROpCode.CONCAT
                     else tokenTypeToOpCode op
       (result, emit { opcode := opcode, operands := [lv, rv], result := result } s)) := rfl

theorem genExpr_ident (name : Str) (s : GSt) :
    genExpr (.ident name) s =
      (match s.symbolTable.find? (fun kv => kv.fst = name) with
       | some kv => (kv.snd, s)
       | none =>
         let var : IRValue := { ty := .LOCAL, name := name }
         (var, { s with symbolTable := setAssoc s.symbolTable name var })) := rfl

end IRGen

/-! ### Claims C1, C2, C4, C9 -/

/-- Claim C1: running the full pipeline (tokenize, parse, generate IR,
interpret) on `int main() { int i = 0; while (i < 3) { print(i); i = i + 1; }
return 0; }` writes exactly the characters `012` to stdout (no separators or
newline, nothing on stderr) and the process exits with code 0. -/
theorem claim_C1 (fuel : Nat) (h : 200 ≤ fuel) :
    zppMain whileLoopSource [] [] fuel = some (0, "012".toList, []) :=
  zppMain_mono whileLoopSource [] [] 200 (0, "012".toList, []) (by decide) fuel h

/-- Witness for C1 at fuel 200. -/
theorem claim_C1_witness :
    200 ≤ 200 ∧ zppMain whileLoopSource [] [] 200 = some (0, "012".toList, []) :=
  ⟨by decide, claim_C1 200 (by decide)⟩

/-- Claim C2: for `DIV`/`MOD` the interpreter coerces the operands to integer
with `toInt`; a divisor that coerces to 0 raises `Division by zero`, and for
every non-zero integer divisor the truncated quotient/remainder is stored as
an `Integer`.  Running the pipeline on `int main() { int a = 7; int b = 0;
return a / b; }` aborts with that diagnostic on stderr and exit code 1. -/
theorem claim_C2 :
    (∀ (instrs : List IRInstruction) (labels : List (Str × Nat)) (ip : Nat)
       (st : Interp.ISt) (hip : ip < instrs.length),
       ((instrs.get ⟨ip, hip⟩).opcode = .DIV ∨ (instrs.get ⟨ip, hip⟩).opcode = .MOD) →
       Interp.toInt (Interp.getTemp st.temps (Interp.opnd (instrs.get ⟨ip, hip⟩) 1).toStr) =
         .ok 0 →
       Interp.step instrs labels ip st = .halt st (.thrown "Division by zero".toList))
  ∧ (∀ (instrs : List IRInstruction) (labels : List (Str × Nat)) (ip : Nat)
       (st : Interp.ISt) (hip : ip < instrs.length) (d x : Int),
       (instrs.get ⟨ip, hip⟩).opcode = .DIV →
       Interp.toInt (Interp.getTemp st.temps (Interp.opnd (instrs.get ⟨ip, hip⟩) 1).toStr) =
         .ok d →
       d ≠ 0 →
       Interp.toInt (Interp.getTemp st.temps (Interp.opnd (instrs.get ⟨ip, hip⟩) 0).toStr) =
         .ok x →
       Interp.step instrs labels ip st = .cont (ip + 1) { st with temps := Interp.setTemp st.temps (instrs.get ⟨ip, hip⟩).result.toStr (.int (x.tdiv d)) })
  ∧ (∀ (instrs : List IRInstruction) (labels : List (Str × Nat)) (ip : Nat)
       (st : Interp.ISt) (hip : ip < instrs.length) (d x : Int),
       (instrs.get ⟨ip, hip⟩).opcode = .MOD →
       Interp.toInt (Interp.getTemp st.temps (Interp.opnd (instrs.get ⟨ip, hip⟩) 1).toStr) =
         .ok d →
       d ≠ 0 →
       Interp.toInt (Interp.getTemp st.temps (Interp.opnd (instrs.get ⟨ip, hip⟩) 0).toStr) =
         .ok x →
       Interp.step instrs labels ip st = .cont (ip + 1) { st with temps := Interp.setTemp st.temps (instrs.get ⟨ip, hip⟩).result.toStr (.int (x.tmod d)) })
  ∧ (∀ fuel, 100 ≤ fuel →
       zppMain divZeroSource [] [] fuel =
         some (1, [], "Error: Division by zero\n".toList)) := by
  refine ⟨?_, ?_, ?_, ?_⟩
  · intro instrs labels ip st hip hop hdiv
    rcases hop with h | h <;>
      (simp only [Interp.step, dif_pos hip, h]
       rw [hdiv]
       simp)
  · intro instrs labels ip st hip d x hop hdiv hd hx
    simp only [Interp.step, dif_pos hip, hop]
    rw [hdiv]
    simp only [if_neg hd]
    rw [hx]
  · intro instrs labels ip st hip d x hop hdiv hd hx
    simp only [Interp.step, dif_pos hip, hop]
    rw [hdiv]
    simp only [if_neg hd]
    rw [hx]
  · intro fuel h
    exact zppMain_mono divZeroSource [] [] 100
      (1, [], "Error: Division by zero\n".toList) (by decide) fuel h

/-- Witness for C2: the `DIV` step on a concrete one-instruction program with
divisor slot holding 0, and the end-to-end run at fuel 100. -/
theorem claim_C2_witness :
    Interp.step
      [({ opcode := .DIV,
          operands := [{ ty := .CONSTANT, name := "7".toList },
                       { ty := .CONSTANT, name := "0".toList }] } : IRInstruction)]
      [] 0 {} = .halt {} (.thrown "Division by zero".toList)
  ∧ zppMain divZeroSource [] [] 100 = some (1, [], "Error: Division by zero\n".toList) :=
  ⟨claim_C2.1 _ [] 0 {} (by decide) (by decide) (by rfl),
   claim_C2.2.2.2 100 (by decide)⟩

/-- Claim C4 (amended): the interpreter's dispatch has no case for `RET`, so
a `RET` instruction is a no-op — the state is untouched and execution
continues with the instruction after it; it does not stop the run. -/
theorem claim_C4 (instrs : List IRInstruction) (labels : List (Str × Nat))
    (ip : Nat) (st : Interp.ISt) (hip : ip < instrs.length)
    (h : (instrs.get ⟨ip, hip⟩).opcode = .RET) :
    Interp.step instrs labels ip st = .cont (ip + 1) st := by
  simp only [Interp.step, dif_pos hip, h]

/-- Witness for C4: a `RET` at index 0 of a concrete program continues at 1. -/
theorem claim_C4_witness :
    Interp.step [({ opcode := .RET } : IRInstruction)] [] 0 {} = .cont 1 {} :=
  claim_C4 _ _ _ _ (by decide) (by decide)

/-- Counterexample for C4 as stated: in the IR of
`int main() { return 0; print(7); }` the first `RET` is at index 1 and the
only `PRINT` at index 3, after it — yet the pipeline writes `7`, so an
instruction located after the first `RET` reached by `main`'s instruction
pointer was executed. -/
theorem claim_C4_counterexample :
    ((IRGen.generate (progOf retNoStopSource)).functions.map
        (fun f => f.instructions.map (fun i => i.opcode)))
      = [[.LOAD_INT, .RET, .LOAD_INT, .PRINT]]
  ∧ zppMain retNoStopSource [] [] 100 = some (0, "7".toList, []) := by
  constructor
  · decide
  · decide

/-- Claim C9: `&&` lowers to the `AND` opcode; the interpreter's dispatch has
no case for `AND`, so the instruction is a no-op and its result slot is never
written; a read of the unwritten slot yields the map's default-constructed
value `Integer 0`; hence a `JZ` conditioned on the result of an `AND` always
jumps (the false branch is taken), as the end-to-end run of
`int main() { while (1 && 1) { print(1); } print(2); return 0; }` shows: the
loop body never runs and only `2` is printed. -/
theorem claim_C9 :
    IRGen.tokenTypeToOpCode .AND = .AND
  ∧ (∀ (l r : Expr) (s : IRGen.GSt),
       ∃ (pre : List IRInstruction) (lv rv t : IRValue),
         (IRGen.genExpr (.binop l .AND r) s).2.cur =
           pre ++ [{ opcode := .AND, operands := [lv, rv], result := t }])
  ∧ (∀ (instrs : List IRInstruction) (labels : List (Str × Nat)) (ip : Nat)
       (st : Interp.ISt) (hip : ip < instrs.length),
       (instrs.get ⟨ip, hip⟩).opcode = .AND →
       Interp.step instrs labels ip st = .cont (ip + 1) st)
  ∧ (∀ (temps : List (Str × Interp.Value)) (k : Str),
       temps.find? (fun kv => kv.fst = k) = none → Interp.getTemp temps k = .int 0)
  ∧ (∀ (instrs : List IRInstruction) (labels : List (Str × Nat)) (ip : Nat)
       (st : Interp.ISt) (hip : ip < instrs.length),
       (instrs.get ⟨ip, hip⟩).opcode = .JZ →
       Interp.getTemp st.temps (Interp.opnd (instrs.get ⟨ip, hip⟩) 0).toStr = .int 0 →
       Interp.step instrs labels ip st =
         .cont (Interp.getLabel labels (instrs.get ⟨ip, hip⟩).label) st)
  ∧ (∀ fuel, 100 ≤ fuel →
       zppMain andBranchSource [] [] fuel = some (0, "2".toList, [])) := by
  refine ⟨by decide, ?_, ?_, ?_, ?_, ?_⟩
  · intro l r s
    rcases hl : IRGen.genExpr l s with ⟨lv, s1⟩
    rcases hr : IRGen.genExpr r s1 with ⟨rv, s2⟩
    refine ⟨s2.cur, lv, rv,
      ⟨.TEMP, 't' :: natToStr s2.tempCounter, (s2.tempCounter : Int)⟩, ?_⟩
    rw [IRGen.genExpr_binop, hl]
    dsimp only []
    rw [hr]
    dsimp only [IRGen.createTemp, IRGen.emit]
    norm_num [IRGen.tokenTypeToOpCode]
    decide
  · intro instrs labels ip st hip h
    simp only [Interp.step, dif_pos hip, h]
  · intro temps k h
    simp [Interp.getTemp, h]
  · intro instrs labels ip st hip hop hv
    simp only [Interp.step, dif_pos hip, hop]
    rw [hv]
    simp
  · intro fuel h
    exact zppMain_mono andBranchSource [] [] 100 (0, "2".toList, []) (by decide) fuel h

/-- Witness for C9 at concrete inputs. -/
theorem claim_C9_witness :
    Interp.step [({ opcode := .AND } : IRInstruction)] [] 0 {} = .cont 1 {}
  ∧ Interp.getTemp [] "t2".toList = .int 0
  ∧ Interp.step
      [({ opcode := .JZ, operands := [{ ty := .TEMP, name := "t2".toList, id := 2 }],
          label := "L1".toList } : IRInstruction)]
      [("L1".toList, 5)] 0 {} = .cont 5 {}
  ∧ zppMain andBranchSource [] [] 100 = some (0, "2".toList, []) :=
  ⟨claim_C9.2.2.1 _ _ 0 {} (by decide) (by decide),
   claim_C9.2.2.2.1 [] _ (by decide),
   claim_C9.2.2.2.2.1 _ _ 0 {} (by decide) (by decide) (by decide),
   claim_C9.2.2.2.2.2 100 (by decide)⟩

/-! ### Definitional equations for the semantic analyzer -/

namespace Sem

theorem analyzeExpr_binop (l : Expr) (op : TokenType) (r : Expr) (st : ASt) :
    analyzeExpr (.binop l op r) st =
      (let (leftType, st) := analyzeExpr l st
       let (rightType, st) := analyzeExpr r st
       let ty :=
         if op = .PLUS || op = .MINUS || op = .STAR || op = .SLASH || op = .PERCENT then
           getCommonType leftType rightType
         else if op = .EQUAL || op = .NOT_EQUAL || op = .LESS || op = .GREATER ||
                 op = .LESS_EQUAL || op = .GREATER_EQUAL then "int".toList
         else if op = .AND || op = .OR then "int".toList
         else if op = .COMMA then rightType
         else "void".toList
       (ty, st)) := rfl

theorem analyzeExpr_unop (op : TokenType) (e : Expr) (st : ASt) :
    analyzeExpr (.unop op e) st =
      (let (operandType, st) := analyzeExpr e st
       if op = .MINUS || op = .NOT then (operandType, st) else ("void".toList, st)) := rfl

theorem analyzeExpr_call (name : Str) (args : List Expr) (st : ASt) :
    analyzeExpr (.call name args) st =
      (match lookupSym name st.scopes with
       | none => ("void".toList, reportError ("Undefined function: ".toList ++ name) st)
       | some sym =>
         if !sym.isFunction then
           ("void".toList, reportError ("'".toList ++ name ++ "' is not a function".toList) st)
         else
           (sym.ty, analyzeExprList args st)) := rfl

theorem analyzeExpr_assign (name : Str) (value : Expr) (st : ASt) :
    analyzeExpr (.assign name value) st =
      (match lookupSym name st.scopes with
       | none => ("void".toList, reportError ("Undefined variable: ".toList ++ name) st)
       | some sym =>
         let (exprType, st) := analyzeExpr value st
         if !isCompatibleType exprType sym.ty then
           (sym.ty, reportError ("Assignment type mismatch: '".toList ++ name ++
             "' expects ".toList ++ sym.ty ++ ", got ".toList ++ exprType) st)
         else (sym.ty, st)) := rfl

theorem analyzeExpr_arrayAccess (arr idx : Expr) (st : ASt) :
    analyzeExpr (.arrayAccess arr idx) st =
      (let (arrayType, st) := analyzeExpr arr st
       let (_indexType, st) := analyzeExpr idx st
       (arrayType, st)) := rfl

theorem analyzeStmt_ret_some (e : Expr) (st : ASt) :
    analyzeStmt (.ret (some e)) st =
      (let (exprType, st) := analyzeExpr e st
       if !isCompatibleType exprType st.currentFunctionReturnType then
         reportError ("Return type mismatch: expected ".toList ++
           st.currentFunctionReturnType ++ ", got ".toList ++ exprType) st
       else st) := rfl

theorem analyzeStmt_ifS_some (cond : Expr) (thenB : Stmt) (e : Stmt) (st : ASt) :
    analyzeStmt (.ifS cond thenB (some e)) st =
      (let (_condType, st) := analyzeExpr cond st
       let st := analyzeStmt thenB st
       analyzeStmt e st) := rfl

theorem analyzeStmt_ifS_none (cond : Expr) (thenB : Stmt) (st : ASt) :
    analyzeStmt (.ifS cond thenB none) st =
      (let (_condType, st) := analyzeExpr cond st
       analyzeStmt thenB st) := rfl

theorem analyzeStmt_whileS (cond : Expr) (body : Stmt) (st : ASt) :
    analyzeStmt (.whileS cond body) st =
      (let (_condType, st) := analyzeExpr cond st
       analyzeStmt body st) := rfl

theorem analyzeStmt_forS_some (i : Stmt) (cond incr : Option Expr) (body : Stmt)
    (st : ASt) :
    analyzeStmt (.forS (some i) cond incr body) st =
      (let st := enterScope st
       let st := analyzeStmt i st
       let st := match cond with
                 | some c => (analyzeExpr c st).2
                 | none => st
       let st := match incr with
                 | some e => (analyzeExpr e st).2
                 | none => st
       let st := analyzeStmt body st
       exitScope st) := rfl

theorem analyzeStmt_forS_none (cond incr : Option Expr) (body : Stmt) (st : ASt) :
    analyzeStmt (.forS none cond incr body) st =
      (let st := enterScope st
       let st := match cond with
                 | some c => (analyzeExpr c st).2
                 | none => st
       let st := match incr with
                 | some e => (analyzeExpr e st).2
                 | none => st
       let st := analyzeStmt body st
       exitScope st) := rfl

theorem analyzeStmt_varDecl (name ty : Str) (init : Option Expr) (st : ASt) :
    analyzeStmt (.varDecl name ty init) st =
      (let st := match init with
                 | some e =>
                   let (exprType, st) := analyzeExpr e st
                   if !isCompatibleType exprType ty then
                     reportError ("Variable initialization type mismatch: expected ".toList ++
                       ty ++ ", got ".toList ++ exprType) st
                   else st
                 | none => st
       declareCaught name ⟨name, ty, false, true⟩ st) := rfl

/-! ### Error-flag monotonicity (nothing ever clears the static flag) -/

theorem reportError_errors (msg : Str) (st : ASt) : (reportError msg st).errors = true := rfl

theorem declareCaught_errors_mono (name : Str) (sym : Symbol) (st : ASt)
    (h : st.errors = true) : (declareCaught name sym st).errors = true := by
  unfold declareCaught declare
  cases st.scopes with
  | nil => exact h
  | cons top rest =>
    dsimp only []
    by_cases hf : (top.find? (fun kv => kv.fst = name)).isSome
    · simp only [hf, if_true]
      rfl
    · simp only [hf, if_false]
      exact h

theorem enterScope_errors (st : ASt) : (enterScope st).errors = st.errors := rfl

theorem exitScope_errors (st : ASt) : (exitScope st).errors = st.errors := by
  unfold exitScope
  cases st.scopes with
  | nil => rfl
  | cons top rest =>
    by_cases hr : rest = []
    · simp [hr]
    · simp [hr]

mutual

theorem analyzeExpr_errors_mono :
    ∀ (e : Expr) (st : ASt), st.errors = true → (analyzeExpr e st).2.errors = true
  | .binop l op r, st, h => by
    rw [analyzeExpr_binop]
    rcases hL : analyzeExpr l st with ⟨lt, st1⟩
    dsimp only []
    rcases hR : analyzeExpr r st1 with ⟨rt, st2⟩
    dsimp only []
    have h1 : st1.errors = true := by
      have hh := analyzeExpr_errors_mono l st h
      rwa [hL] at hh
    have h2 : st2.errors = true := by
      have hh := analyzeExpr_errors_mono r st1 h1
      rwa [hR] at hh
    exact h2
  | .unop op e, st, h => by
    rw [analyzeExpr_unop]
    rcases hE : analyzeExpr e st with ⟨t, st1⟩
    dsimp only []
    have h1 : st1.errors = true := by
      have hh := analyzeExpr_errors_mono e st h
      rwa [hE] at hh
    by_cases hc : (op = TokenType.MINUS || op = TokenType.NOT) = true
    · simp only [hc, if_true]; exact h1
    · simp only [hc, if_false]; exact h1
  | .lit ty v, st, h => h
  | .ident name, st, h => by
    show (match lookupSym name st.scopes with
          | none => ("void".toList,
              reportError ("Undefined identifier: ".toList ++ name) st)
          | some sym => (sym.ty, st)).2.errors = true
    cases hs : lookupSym name st.scopes with
    | none => exact rfl
    | some sym => exact h
  | .call name args, st, h => by
    rw [analyzeExpr_call]
    cases hs : lookupSym name st.scopes with
    | none => exact rfl
    | some sym =>
      dsimp only []
      by_cases hf : (!sym.isFunction) = true
      · simp only [hf, if_true]; exact rfl
      · simp only [hf, if_false]
        exact analyzeExprList_errors_mono args st h
  | .assign name value, st, h => by
    rw [analyzeExpr_assign]
    cases hs : lookupSym name st.scopes with
    | none => exact rfl
    | some sym =>
      dsimp only []
      rcases hV : analyzeExpr value st with ⟨vt, st1⟩
      dsimp only []
      have h1 : st1.errors = true := by
        have hh := analyzeExpr_errors_mono value st h
        rwa [hV] at hh
      by_cases hc : (!isCompatibleType vt sym.ty) = true
      · simp only [hc, if_true]; exact rfl
      · simp only [hc, if_false]; exact h1
  | .arrayAccess arr idx, st, h => by
    rw [analyzeExpr_arrayAccess]
    rcases hA : analyzeExpr arr st with ⟨t1, st1⟩
    dsimp only []
    rcases hI : analyzeExpr idx st1 with ⟨t2, st2⟩
    dsimp only []
    have h1 : st1.errors = true := by
      have hh := analyzeExpr_errors_mono arr st h
      rwa [hA] at hh
    have h2 : st2.errors = true := by
      have hh := analyzeExpr_errors_mono idx st1 h1
      rwa [hI] at hh
    exact h2
  | .inputCall p, st, h => h
  | .keyPressedCall p, st, h => h

theorem analyzeExprList_errors_mono :
    ∀ (es : List Expr) (st : ASt), st.errors = true → (analyzeExprList es st).errors = true
  | [], st, h => h
  | e :: es, st, h =>
    analyzeExprList_errors_mono es (analyzeExpr e st).2 (analyzeExpr_errors_mono e st h)

end

mutual

theorem analyzeStmt_errors_mono :
    ∀ (s : Stmt) (st : ASt), st.errors = true → (analyzeStmt s st).errors = true
  | .block ss, st, h => analyzeStmtList_errors_mono ss st h
  | .ret none, st, h => h
  | .ret (some e), st, h => by
    rw [analyzeStmt_ret_some]
    rcases hE : analyzeExpr e st with ⟨t, st1⟩
    dsimp only []
    have h1 : st1.errors = true := by
      have hh := analyzeExpr_errors_mono e st h
      rwa [hE] at hh
    by_cases hc : (!isCompatibleType t st1.currentFunctionReturnType) = true
    · simp only [hc, if_true]; exact rfl
    · simp only [hc, if_false]; exact h1
  | .ifS cond thenB none, st, h => by
    rw [analyzeStmt_ifS_none]
    rcases hC : analyzeExpr cond st with ⟨ct, st1⟩
    dsimp only []
    have h1 : st1.errors = true := by
      have hh := analyzeExpr_errors_mono cond st h
      rwa [hC] at hh
    exact analyzeStmt_errors_mono thenB st1 h1
  | .ifS cond thenB (some e), st, h => by
    rw [analyzeStmt_ifS_some]
    rcases hC : analyzeExpr cond st with ⟨ct, st1⟩
    dsimp only []
    have h1 : st1.errors = true := by
      have hh := analyzeExpr_errors_mono cond st h
      rwa [hC] at hh
    exact analyzeStmt_errors_mono e _ (analyzeStmt_errors_mono thenB st1 h1)
  | .whileS cond body, st, h => by
    rw [analyzeStmt_whileS]
    rcases hC : analyzeExpr cond st with ⟨ct, st1⟩
    dsimp only []
    have h1 : st1.errors = true := by
      have hh := analyzeExpr_errors_mono cond st h
      rwa [hC] at hh
    exact analyzeStmt_errors_mono body st1 h1
  | .forS (some i) cond incr body, st, h => by
    rw [analyzeStmt_forS_some]
    dsimp only []
    rw [exitScope_errors]
    apply analyzeStmt_errors_mono
    have h0 : (enterScope st).errors = true := by rw [enterScope_errors]; exact h
    have h1 := analyzeStmt_errors_mono i (enterScope st) h0
    cases incr <;> cases cond <;>
      repeat
        first
          | exact h1
          | apply analyzeExpr_errors_mono
  | .forS none cond incr body, st, h => by
    rw [analyzeStmt_forS_none]
    dsimp only []
    rw [exitScope_errors]
    apply analyzeStmt_errors_mono
    have h0 : (enterScope st).errors = true := by rw [enterScope_errors]; exact h
    cases incr <;> cases cond <;>
      repeat
        first
          | exact h0
          | apply analyzeExpr_errors_mono
  | .varDecl name ty init, st, h => by
    rw [analyzeStmt_varDecl]
    dsimp only []
    apply declareCaught_errors_mono
    cases init with
    | none => exact h
    | some e =>
      dsimp only []
      rcases hE : analyzeExpr e st with ⟨t, st1⟩
      dsimp only []
      have h1 : st1.errors = true := by
        have hh := analyzeExpr_errors_mono e st h
        rwa [hE] at hh
      by_cases hc : (!isCompatibleType t ty) = true
      · simp only [hc, if_true]; exact rfl
      · simp only [hc, if_false]; exact h1
  | .exprStmt e, st, h => analyzeExpr_errors_mono e st h
  | .printStmt e, st, h => h

theorem analyzeStmtList_errors_mono :
    ∀ (ss : List Stmt) (st : ASt), st.errors = true → (analyzeStmtList ss st).errors = true
  | [], st, h => h
  | s :: ss, st, h =>
    analyzeStmtList_errors_mono ss (analyzeStmt s st) (analyzeStmt_errors_mono s st h)

end

theorem declareParams_errors_mono (ps : List (Str × Str)) :
    ∀ (st : ASt), st.errors = true →
      (ps.foldl (fun st p => declareCaught p.snd ⟨p.snd, p.fst, false, true⟩ st) st).errors
        = true := by
  induction ps with
  | nil => intro st h; exact h
  | cons p ps ih =>
    intro st h
    exact ih _ (declareCaught_errors_mono _ _ _ h)

theorem analyzeFunction_errors_mono (f : FunctionDecl) (st : ASt)
    (h : st.errors = true) : (analyzeFunction f st).errors = true := by
  unfold analyzeFunction
  rw [exitScope_errors]
  apply analyzeStmt_errors_mono
  apply declareParams_errors_mono
  rw [enterScope_errors]
  exact h

theorem declareFuncs_errors_mono (fs : List FunctionDecl) :
    ∀ (st : ASt), st.errors = true →
      (fs.foldl (fun st f => declareCaught f.name ⟨f.name, f.returnType, true, true⟩ st)
        st).errors = true := by
  induction fs with
  | nil => intro st h; exact h
  | cons f fs ih =>
    intro st h
    exact ih _ (declareCaught_errors_mono _ _ _ h)

theorem analyzeFuncs_errors_mono (fs : List FunctionDecl) :
    ∀ (st : ASt), st.errors = true →
      (fs.foldl (fun st f => analyzeFunction f st) st).errors = true := by
  induction fs with
  | nil => intro st h; exact h
  | cons f fs ih =>
    intro st h
    exact ih _ (analyzeFunction_errors_mono f st h)

theorem analyzeProgram_errors_mono (p : Program) (st : ASt) (h : st.errors = true) :
    (analyzeProgram p st).errors = true := by
  unfold analyzeProgram
  exact analyzeFuncs_errors_mono _ _ (declareFuncs_errors_mono _ _ h)

end Sem

/-! ### Claims C3, C7, C10 -/

/-- Claim C3, evaluated at the failing input: for
`int main() { { int x = 5; } return x; }` — a variable declared inside a
nested block and referenced after it — a fresh semantic analyzer run reports
*no* error at all: block statements do not enter a new scope, so the inner
declaration lands in the function scope and `return x` resolves.  The claim
(and the repository's own scope test, which asserts `hasErrors()` for exactly
this program) requires an "Undefined identifier" error here. -/
theorem claim_C3 :
    parseOk blockScopeSource = true
  ∧ (Sem.analyze (progOf blockScopeSource) false).errors = false
  ∧ (Sem.analyze (progOf blockScopeSource) false).msgs = []
  ∧ Sem.hasErrors (Sem.analyze (progOf blockScopeSource) false) = false :=
  ⟨by decide, by decide, by decide, by decide⟩

/-- Counterexample for C7 as stated: `analyzeLiteral` sends the boolean
literal kind to `void`, not `bool`, and the declaration
`bool flag = true;` is reported as a type mismatch rather than passing. -/
theorem claim_C7_counterexample :
    Sem.analyzeLiteral .TRUE_LIT = "void".toList
  ∧ Sem.analyzeLiteral .TRUE_LIT ≠ "bool".toList
  ∧ parseOk boolLitSource = true
  ∧ (Sem.analyze (progOf boolLitSource) false).errors = true
  ∧ (Sem.analyze (progOf boolLitSource) false).msgs =
      ["Variable initialization type mismatch: expected bool, got void".toList] :=
  ⟨by decide, by decide, by decide, by decide, by decide⟩

/-- Claim C7 (amended): `analyzeLiteral` maps only `INTEGER`, `FLOAT` and
`STRING` to a type; every other literal kind — in particular the boolean
literals `TRUE_LIT`/`FALSE_LIT` the parser materializes for `true`/`false` —
falls into the `default:` case and is assigned `void`.  Since
`isCompatibleType("void", "bool")` is false, `bool flag = true;` raises a
"Variable initialization type mismatch" semantic error instead of passing. -/
theorem claim_C7 :
    Sem.analyzeLiteral .INTEGER = "int".toList
  ∧ Sem.analyzeLiteral .FLOAT = "float".toList
  ∧ Sem.analyzeLiteral .STRING = "string".toList
  ∧ (∀ ty : TokenType, ty ≠ .INTEGER → ty ≠ .FLOAT → ty ≠ .STRING →
       Sem.analyzeLiteral ty = "void".toList)
  ∧ (∀ (v : Str) (st : Sem.ASt),
       Sem.analyzeExpr (.lit .TRUE_LIT v) st = ("void".toList, st)
     ∧ Sem.analyzeExpr (.lit .FALSE_LIT v) st = ("void".toList, st))
  ∧ Sem.isCompatibleType "void".toList "bool".toList = false
  ∧ (Sem.analyze (progOf boolLitSource) false).errors = true := by
  refine ⟨by decide, by decide, by decide, ?_, ?_, by decide, by decide⟩
  · intro ty h1 h2 h3
    cases ty <;> simp_all [Sem.analyzeLiteral]
  · intro v st
    exact ⟨rfl, rfl⟩

/-- Witness for C7 at the boolean literal kind. -/
theorem claim_C7_witness :
    TokenType.TRUE_LIT ≠ TokenType.INTEGER
  ∧ TokenType.TRUE_LIT ≠ TokenType.FLOAT
  ∧ TokenType.TRUE_LIT ≠ TokenType.STRING
  ∧ Sem.analyzeLiteral .TRUE_LIT = "void".toList
  ∧ Sem.analyzeExpr (.lit .TRUE_LIT "1".toList) {} = ("void".toList, {}) :=
  ⟨by decide, by decide, by decide,
   claim_C7.2.2.2.1 .TRUE_LIT (by decide) (by decide) (by decide),
   (claim_C7.2.2.2.2.1 "1".toList {}).1⟩

/-- Claim C10: the semantic error flag is the static `errors` boolean:
`reportError` sets it and nothing ever clears it, so once it is true any
later `analyze()` run — on any program, with or without semantic errors —
still reports `hasErrors() = true`. -/
theorem claim_C10 :
    (∀ (msg : Str) (st : Sem.ASt), (Sem.reportError msg st).errors = true)
  ∧ (∀ (p : Program) (b : Bool), b = true → Sem.hasErrors (Sem.analyze p b) = true) := by
  constructor
  · intro msg st
    exact Sem.reportError_errors msg st
  · intro p b h
    subst h
    exact Sem.analyzeProgram_errors_mono p { errors := true } rfl

/-- Witness for C10: after an earlier run set the flag, analyzing the
error-free while program still reports errors. -/
theorem claim_C10_witness :
    (Sem.reportError "Undefined identifier: y".toList {}).errors = true
  ∧ Sem.hasErrors (Sem.analyze (progOf whileLoopSource) true) = true :=
  ⟨claim_C10.1 "Undefined identifier: y".toList {},
   claim_C10.2 (progOf whileLoopSource) true (by decide)⟩

/-! ### Remaining definitional equations for the IR generator -/

namespace IRGen

theorem genExpr_unop (op : TokenType) (e : Expr) (s : GSt) :
    genExpr (.unop op e) s =
      (let (ov, s) := genExpr e s
       let (result, s) := createTemp s
       (result, emit { opcode := tokenTypeToOpCode op, operands := [ov],
                       result := result } s)) := rfl

theorem genExpr_lit (ty : TokenType) (v : Str) (s : GSt) :
    genExpr (.lit ty v) s =
      (let val : IRValue := { ty := .CONSTANT, name := v }
       if ty = .INTEGER then
         let (result, s) := createTemp s
         (result, emit { opcode := .LOAD_INT, operands := [val], result := result } s)
       else if ty = .FLOAT then
         let (result, s) := createTemp s
         (result, emit { opcode := .LOAD_FLOAT, operands := [val], result := result } s)
       else if ty = .STRING then
         let (result, s) := createTemp s
         (result, emit { opcode := .LOAD_STRING, operands := [val], result := result } s)
       else
         (val, s)) := rfl

theorem genExpr_call_nil (name : Str) (s : GSt) :
    genExpr (.call name []) s =
      (let (result, s) := createTemp s
       if name = "screen".toList then
         let (argVals, s) := genExprList [] s
         (result, emit { opcode := .SCREEN, operands := argVals, result := result } s)
       else if name = "clearScreen".toList then
         let (argVals, s) := genExprList [] s
         (result, emit { opcode := .CLEAR_SCREEN, operands := argVals, result := result } s)
       else if name = "drawPixel".toList then
         let (argVals, s) := genExprList [] s
         (result, emit { opcode := .DRAW_PIXEL, operands := argVals, result := result } s)
       else if name = "drawRect".toList then
         let (argVals, s) := genExprList [] s
         (result, emit { opcode := .DRAW_RECT, operands := argVals, result := result } s)
       else if name = "drawLine".toList then
         let (argVals, s) := genExprList [] s
         (result, emit { opcode := .DRAW_LINE, operands := argVals, result := result } s)
       else if name = "drawCircle".toList then
         let (argVals, s) := genExprList [] s
         (result, emit { opcode := .DRAW_CIRCLE, operands := argVals, result := result } s)
       else if name = "display".toList then
         (result, emit { opcode := .PRESENT, result := result } s)
       else if name = "quit".toList then
         (result, emit { opcode := .CALL, label := "quit".toList, result := result } s)
       else if name = "isKeyDown".toList then
         (result, emit { opcode := .CALL, label := "isKeyDown".toList,
                         result := result } s)
       else if name = "updateInput".toList then
         (result, emit { opcode := .CALL, label := "updateInput".toList,
                         result := result } s)
       else
         let (argVals, s) := genExprList [] s
         (result, emit { opcode := .CALL, label := name, operands := argVals,
                         result := result } s)) := rfl

theorem genExpr_call_cons (name : Str) (a : Expr) (args : List Expr) (s : GSt) :
    genExpr (.call name (a :: args)) s =
      (let (result, s) := createTemp s
       if name = "screen".toList then
         let (argVals, s) := genExprList (a :: args) s
         (result, emit { opcode := .SCREEN, operands := argVals, result := result } s)
       else if name = "clearScreen".toList then
         let (argVals, s) := genExprList (a :: args) s
         (result, emit { opcode := .CLEAR_SCREEN, operands := argVals, result := result } s)
       else if name = "drawPixel".toList then
         let (argVals, s) := genExprList (a :: args) s
         (result, emit { opcode := .DRAW_PIXEL, operands := argVals, result := result } s)
       else if name = "drawRect".toList then
         let (argVals, s) := genExprList (a :: args) s
         (result, emit { opcode := .DRAW_RECT, operands := argVals, result := result } s)
       else if name = "drawLine".toList then
         let (argVals, s) := genExprList (a :: args) s
         (result, emit { opcode := .DRAW_LINE, operands := argVals, result := result } s)
       else if name = "drawCircle".toList then
         let (argVals, s) := genExprList (a :: args) s
         (result, emit { opcode := .DRAW_CIRCLE, operands := argVals, result := result } s)
       else if name = "display".toList then
         (result, emit { opcode := .PRESENT, result := result } s)
       else if name = "quit".toList then
         (result, emit { opcode := .CALL, label := "quit".toList, result := result } s)
       else if name = "isKeyDown".toList then
         let (keyVal, s) := genExpr a s
         (result, emit { opcode := .CALL, label := "isKeyDown".toList,
                         operands := [keyVal], result := result } s)
       else if name = "updateInput".toList then
         (result, emit { opcode := .CALL, label := "updateInput".toList,
                         result := result } s)
       else
         let (argVals, s) := genExprList (a :: args) s
         (result, emit { opcode := .CALL, label := name, operands := argVals,
                         result := result } s)) := rfl

theorem genExpr_assign (name : Str) (value : Expr) (s : GSt) :
    genExpr (.assign name value) s =
      (let (v, s) := genExpr value s
       let (var, s) :=
         match s.symbolTable.find? (fun kv => kv.fst = name) with
         | some kv => (kv.snd, s)
         | none =>
           let var : IRValue := { ty := .LOCAL, name := name }
           (var, { s with symbolTable := setAssoc s.symbolTable name var })
       (var, emit { opcode := .STORE, operands := [v], result := var } s)) := rfl

theorem genExpr_arrayAccess (arr idx : Expr) (s : GSt) :
    genExpr (.arrayAccess arr idx) s =
      (let (av, s) := genExpr arr s
       let (iv, s) := genExpr idx s
       let (result, s) := createTemp s
       (result, emit { opcode := .LOAD, operands := [av, iv], result := result } s)) := rfl

theorem genExpr_inputCall (prompt : Option Expr) (s : GSt) :
    genExpr (.inputCall prompt) s =
      (let (result, s) := createTemp s
       let promptText : Str :=
         match prompt with
         | some (.lit ty v) => if ty = .STRING then v else []
         | _ => []
       (result, emit { opcode := .INPUT, result := result, prompt := promptText } s)) := rfl

theorem genExpr_keyPressedCall (prompt : Option Expr) (s : GSt) :
    genExpr (.keyPressedCall prompt) s =
      (let (result, s) := createTemp s
       (result, emit { opcode := .KEY_PRESSED, result := result } s)) := rfl

theorem genStmt_block (ss : List Stmt) (s : GSt) :
    genStmt (.block ss) s = genStmtList ss s := rfl

theorem genStmt_ret_some (e : Expr) (s : GSt) :
    genStmt (.ret (some e)) s =
      (let (val, s) := genExpr e s
       emit { opcode := .RET, operands := [val] } s) := rfl

theorem genStmt_ret_none (s : GSt) :
    genStmt (.ret none) s = emit { opcode := .RET } s := rfl

theorem genStmt_ifS_some (cond : Expr) (thenB e : Stmt) (s : GSt) :
    genStmt (.ifS cond thenB (some e)) s =
      (let (condV, s) := genExpr cond s
       let (_thenLabel, s) := createLabel s
       let (elseLabel, s) := createLabel s
       let (endLabel, s) := createLabel s
       let s := emit { opcode := .JZ, operands := [condV], label := elseLabel } s
       let s := emit { opcode := .LABEL, label := _thenLabel } s
       let s := genStmt thenB s
       let s := emit { opcode := .JMP, label := endLabel } s
       let s := emit { opcode := .LABEL, label := elseLabel } s
       let s := genStmt e s
       emit { opcode := .LABEL, label := endLabel } s) := rfl

theorem genStmt_ifS_none (cond : Expr) (thenB : Stmt) (s : GSt) :
    genStmt (.ifS cond thenB none) s =
      (let (condV, s) := genExpr cond s
       let (_thenLabel, s) := createLabel s
       let (elseLabel, s) := createLabel s
       let (endLabel, s) := createLabel s
       let s := emit { opcode := .JZ, operands := [condV], label := elseLabel } s
       let s := emit { opcode := .LABEL, label := _thenLabel } s
       let s := genStmt thenB s
       let s := emit { opcode := .JMP, label := endLabel } s
       let s := emit { opcode := .LABEL, label := elseLabel } s
       emit { opcode := .LABEL, label := endLabel } s) := rfl

theorem genStmt_whileS (cond : Expr) (body : Stmt) (s : GSt) :
    genStmt (.whileS cond body) s =
      (let (loopLabel, s) := createLabel s
       let (endLabel, s) := createLabel s
       let s := emit { opcode := .LABEL, label := loopLabel } s
       let (condV, s) := genExpr cond s
       let s := emit { opcode := .JZ, operands := [condV], label := endLabel } s
       let s := genStmt body s
       let s := emit { opcode := .JMP, label := loopLabel } s
       emit { opcode := .LABEL, label := endLabel } s) := rfl

theorem genStmt_forS_some (i : Stmt) (cond incr : Option Expr) (body : Stmt) (s : GSt) :
    genStmt (.forS (some i) cond incr body) s =
      (let s := genStmt i s
       let (loopLabel, s) := createLabel s
       let (endLabel, s) := createLabel s
       let s := emit { opcode := .LABEL, label := loopLabel } s
       let s := match cond with
                | some c =>
                  let (condV, s) := genExpr c s
                  emit { opcode := .JZ, operands := [condV], label := endLabel } s
                | none => s
       let s := genStmt body s
       let s := match incr with
                | some e => (genExpr e s).2
                | none => s
       let s := emit { opcode := .JMP, label := loopLabel } s
       emit { opcode := .LABEL, label := endLabel } s) := rfl

theorem genStmt_forS_none (cond incr : Option Expr) (body : Stmt) (s : GSt) :
    genStmt (.forS none cond incr body) s =
      (let (loopLabel, s) := createLabel s
       let (endLabel, s) := createLabel s
       let s := emit { opcode := .LABEL, label := loopLabel } s
       let s := match cond with
                | some c =>
                  let (condV, s) := genExpr c s
                  emit { opcode := .JZ, operands := [condV], label := endLabel } s
                | none => s
       let s := genStmt body s
       let s := match incr with
                | some e => (genExpr e s).2
                | none => s
       let s := emit { opcode := .JMP, label := loopLabel } s
       emit { opcode := .LABEL, label := endLabel } s) := rfl

theorem genStmt_varDecl (name ty : Str) (init : Option Expr) (s : GSt) :
    genStmt (.varDecl name ty init) s =
      (let var : IRValue := { ty := .LOCAL, name := name }
       let s := { s with symbolTable := setAssoc s.symbolTable name var }
       match init with
       | some e =>
         let (val, s) := genExpr e s
         emit { opcode := .STORE, operands := [val], result := var } s
       | none => s) := rfl

theorem genStmt_exprStmt (e : Expr) (s : GSt) :
    genStmt (.exprStmt e) s = (genExpr e s).2 := rfl

theorem genStmt_printStmt (e : Expr) (s : GSt) :
    genStmt (.printStmt e) s =
      (let (val, s) := genExpr e s
       emit { opcode := .PRINT, operands := [val] } s) := rfl

end IRGen

/-! ### Counter/trace invariants of the IR generator (claim C6)

`tempTrace`/`labelTrace` record, in order, the counter value consumed by each
`createTemp`/`createLabel` call.  The invariant below states that a generator
run extends each trace by a block of consecutive numbers starting at the
incoming counter value. -/

namespace IRGen

theorem genExprList_nil (s : GSt) : genExprList [] s = ([], s) := rfl

theorem genExprList_cons (e : Expr) (es : List Expr) (s : GSt) :
    genExprList (e :: es) s =
      (let (v, s) := genExpr e s
       let (vs, s) := genExprList es s
       (v :: vs, s)) := rfl

theorem genStmtList_nil (s : GSt) : genStmtList [] s = s := rfl

theorem genStmtList_cons (st : Stmt) (sts : List Stmt) (s : GSt) :
    genStmtList (st :: sts) s = genStmtList sts (genStmt st s) := rfl

/-- Splitting a block of consecutive numbers. -/
theorem range'_split (a k m : Nat) :
    List.range' a (k + m) = List.range' a k ++ List.range' (a + k) m := by
  induction k generalizing a with
  | zero => simp
  | succ k ih =>
    have h1 : k + 1 + m = (k + m) + 1 := by omega
    rw [h1, List.range'_succ, List.range'_succ, ih (a + 1)]
    have h2 : a + 1 + k = a + (k + 1) := by omega
    rw [h2, List.cons_append]

/-- `s'` is reachable from `s` by allocating `k` temps and `m` labels: the
counters advance by `k`/`m` and the traces gain exactly the consecutive
numbers in between. -/
def TraceExtends (s s' : GSt) : Prop :=
  ∃ k m, s'.tempCounter = s.tempCounter + k
    ∧ s'.tempTrace = s.tempTrace ++ List.range' s.tempCounter k
    ∧ s'.labelCounter = s.labelCounter + m
    ∧ s'.labelTrace = s.labelTrace ++ List.range' s.labelCounter m

theorem trRefl (s : GSt) : TraceExtends s s :=
  ⟨0, 0, rfl, by simp, rfl, by simp⟩

theorem trTrans {s1 s2 s3 : GSt} (h12 : TraceExtends s1 s2)
    (h23 : TraceExtends s2 s3) : TraceExtends s1 s3 := by
  obtain ⟨k1, m1, hk1, ht1, hm1, hl1⟩ := h12
  obtain ⟨k2, m2, hk2, ht2, hm2, hl2⟩ := h23
  refine ⟨k1 + k2, m1 + m2, by omega, ?_, by omega, ?_⟩
  · rw [ht2, ht1, hk1, List.append_assoc, ← range'_split]
  · rw [hl2, hl1, hm1, List.append_assoc, ← range'_split]

theorem trEmit {s1 s2 : GSt} (i : IRInstruction) (h : TraceExtends s1 s2) :
    TraceExtends s1 (emit i s2) := by
  obtain ⟨k, m, hk, ht, hm, hl⟩ := h
  exact ⟨k, m, hk, ht, hm, hl⟩

theorem trSym {s1 s2 : GSt} (tbl : List (Str × IRValue))
    (h : TraceExtends s1 s2) :
    TraceExtends s1 { s2 with symbolTable := tbl } := by
  obtain ⟨k, m, hk, ht, hm, hl⟩ := h
  exact ⟨k, m, hk, ht, hm, hl⟩

theorem createTemp_extends (s : GSt) : TraceExtends s (createTemp s).2 :=
  ⟨1, 0, rfl, rfl, rfl, by simp [createTemp]⟩

theorem createLabel_extends (s : GSt) : TraceExtends s (createLabel s).2 :=
  ⟨0, 1, rfl, by simp [createLabel], rfl, rfl⟩

set_option maxHeartbeats 1600000 in
mutual

theorem genExpr_extends :
    ∀ (e : Expr) (s : GSt), TraceExtends s (genExpr e s).2
  | .binop l op r, s => by
    rw [genExpr_binop]
    rcases hL : genExpr l s with ⟨lv, s1⟩
    try dsimp only []
    rcases hR : genExpr r s1 with ⟨rv, s2⟩
    try dsimp only []
    rcases hT : createTemp s2 with ⟨t, s3⟩
    try dsimp only []
    have h1 : TraceExtends s s1 := by
      have hh := genExpr_extends l s; rwa [hL] at hh
    have h2 : TraceExtends s s2 := by
      have hh := genExpr_extends r s1; rw [hR] at hh; exact trTrans h1 hh
    have h3 : TraceExtends s s3 := by
      have hh := createTemp_extends s2; rw [hT] at hh; exact trTrans h2 hh
    exact trEmit _ h3
  | .unop op e, s => by
    rw [genExpr_unop]
    rcases hE : genExpr e s with ⟨ov, s1⟩
    try dsimp only []
    rcases hT : createTemp s1 with ⟨t, s2⟩
    try dsimp only []
    have h1 : TraceExtends s s1 := by
      have hh := genExpr_extends e s; rwa [hE] at hh
    have h2 : TraceExtends s s2 := by
      have hh := createTemp_extends s1; rw [hT] at hh; exact trTrans h1 hh
    exact trEmit _ h2
  | .lit ty v, s => by
    rw [genExpr_lit]
    rcases hT : createTemp s with ⟨t, s1⟩
    have h1 : TraceExtends s s1 := by
      have hh := createTemp_extends s; rwa [hT] at hh
    try dsimp only []
    split
    · exact trEmit _ h1
    · split
      · exact trEmit _ h1
      · split
        · exact trEmit _ h1
        · exact trRefl s
  | .ident name, s => by
    rw [genExpr_ident]
    cases hF : s.symbolTable.find? (fun kv => kv.fst = name) with
    | some kv => exact trRefl s
    | none => exact trSym _ (trRefl s)
  | .call name [], s => by
    rw [genExpr_call_nil]
    rcases hT : createTemp s with ⟨t, s1⟩
    have h1 : TraceExtends s s1 := by
      have hh := createTemp_extends s; rwa [hT] at hh
    try dsimp only []
    rcases hA : genExprList [] s1 with ⟨vs, s2⟩
    have h2 : TraceExtends s s2 := by
      have hh := genExprList_extends [] s1; rw [hA] at hh; exact trTrans h1 hh
    try dsimp only []
    repeat' split
    all_goals first
      | exact trEmit _ h1
      | exact trEmit _ h2
  | .call name (a :: args), s => by
    rw [genExpr_call_cons]
    rcases hT : createTemp s with ⟨t, s1⟩
    have h1 : TraceExtends s s1 := by
      have hh := createTemp_extends s; rwa [hT] at hh
    try dsimp only []
    rcases hA : genExprList (a :: args) s1 with ⟨vs, s2⟩
    have h2 : TraceExtends s s2 := by
      have hh := genExprList_extends (a :: args) s1
      rw [hA] at hh; exact trTrans h1 hh
    try dsimp only []
    rcases hK : genExpr a s1 with ⟨kv, s3⟩
    have h3 : TraceExtends s s3 := by
      have hh := genExpr_extends a s1; rw [hK] at hh; exact trTrans h1 hh
    try dsimp only []
    repeat' split
    all_goals first
      | exact trEmit _ h1
      | exact trEmit _ h2
      | exact trEmit _ h3
  | .assign name value, s => by
    rw [genExpr_assign]
    rcases hV : genExpr value s with ⟨v, s1⟩
    try dsimp only []
    have h1 : TraceExtends s s1 := by
      have hh := genExpr_extends value s; rwa [hV] at hh
    cases hF : s1.symbolTable.find? (fun kv => kv.fst = name) with
    | some kv =>
      try dsimp only []
      exact trEmit _ h1
    | none =>
      try dsimp only []
      exact trEmit _ (trSym _ h1)
  | .arrayAccess arr idx, s => by
    rw [genExpr_arrayAccess]
    rcases hA : genExpr arr s with ⟨av, s1⟩
    try dsimp only []
    rcases hI : genExpr idx s1 with ⟨iv, s2⟩
    try dsimp only []
    rcases hT : createTemp s2 with ⟨t, s3⟩
    try dsimp only []
    have h1 : TraceExtends s s1 := by
      have hh := genExpr_extends arr s; rwa [hA] at hh
    have h2 : TraceExtends s s2 := by
      have hh := genExpr_extends idx s1; rw [hI] at hh; exact trTrans h1 hh
    have h3 : TraceExtends s s3 := by
      have hh := createTemp_extends s2; rw [hT] at hh; exact trTrans h2 hh
    exact trEmit _ h3
  | .inputCall prompt, s => by
    rw [genExpr_inputCall]
    rcases hT : createTemp s with ⟨t, s1⟩
    try dsimp only []
    have h1 : TraceExtends s s1 := by
      have hh := createTemp_extends s; rwa [hT] at hh
    exact trEmit _ h1
  | .keyPressedCall prompt, s => by
    rw [genExpr_keyPressedCall]
    rcases hT : createTemp s with ⟨t, s1⟩
    try dsimp only []
    have h1 : TraceExtends s s1 := by
      have hh := createTemp_extends s; rwa [hT] at hh
    exact trEmit _ h1

theorem genExprList_extends :
    ∀ (es : List Expr) (s : GSt), TraceExtends s (genExprList es s).2
  | [], s => trRefl s
  | e :: es, s => by
    rw [genExprList_cons]
    rcases hE : genExpr e s with ⟨v, s1⟩
    try dsimp only []
    rcases hL : genExprList es s1 with ⟨vs, s2⟩
    try dsimp only []
    have h1 : TraceExtends s s1 := by
      have hh := genExpr_extends e s; rwa [hE] at hh
    have h2 : TraceExtends s s2 := by
      have hh := genExprList_extends es s1; rw [hL] at hh; exact trTrans h1 hh
    exact h2

end

set_option maxHeartbeats 1600000 in
mutual

theorem genStmt_extends :
    ∀ (st : Stmt) (s : GSt), TraceExtends s (genStmt st s)
  | .block ss, s => by
    rw [genStmt_block]; exact genStmtList_extends ss s
  | .ret (some e), s => by
    rw [genStmt_ret_some]
    rcases hE : genExpr e s with ⟨v, s1⟩
    try dsimp only []
    have h1 : TraceExtends s s1 := by
      have hh := genExpr_extends e s; rwa [hE] at hh
    exact trEmit _ h1
  | .ret none, s => by
    rw [genStmt_ret_none]
    exact trEmit _ (trRefl s)
  | .ifS cond thenB (some e), s => by
    rw [genStmt_ifS_some]
    rcases hC : genExpr cond s with ⟨cv, s1⟩
    try dsimp only []
    rcases hL1 : createLabel s1 with ⟨l1, s2⟩
    try dsimp only []
    rcases hL2 : createLabel s2 with ⟨l2, s3⟩
    try dsimp only []
    rcases hL3 : createLabel s3 with ⟨l3, s4⟩
    try dsimp only []
    have h1 : TraceExtends s s1 := by
      have hh := genExpr_extends cond s; rwa [hC] at hh
    have h2 : TraceExtends s s2 := by
      have hh := createLabel_extends s1; rw [hL1] at hh; exact trTrans h1 hh
    have h3 : TraceExtends s s3 := by
      have hh := createLabel_extends s2; rw [hL2] at hh; exact trTrans h2 hh
    have h4 : TraceExtends s s4 := by
      have hh := createLabel_extends s3; rw [hL3] at hh; exact trTrans h3 hh
    have h5 : TraceExtends s
        (genStmt thenB (emit { opcode := .LABEL, label := l1 }
          (emit { opcode := .JZ, operands := [cv], label := l2 } s4))) :=
      trTrans (trEmit _ (trEmit _ h4)) (genStmt_extends thenB _)
    have h6 : TraceExtends s
        (genStmt e (emit { opcode := .LABEL, label := l2 }
          (emit { opcode := .JMP, label := l3 }
            (genStmt thenB (emit { opcode := .LABEL, label := l1 }
              (emit { opcode := .JZ, operands := [cv], label := l2 } s4)))))) :=
      trTrans (trEmit _ (trEmit _ h5)) (genStmt_extends e _)
    exact trEmit _ h6
  | .ifS cond thenB none, s => by
    rw [genStmt_ifS_none]
    rcases hC : genExpr cond s with ⟨cv, s1⟩
    try dsimp only []
    rcases hL1 : createLabel s1 with ⟨l1, s2⟩
    try dsimp only []
    rcases hL2 : createLabel s2 with ⟨l2, s3⟩
    try dsimp only []
    rcases hL3 : createLabel s3 with ⟨l3, s4⟩
    try dsimp only []
    have h1 : TraceExtends s s1 := by
      have hh := genExpr_extends cond s; rwa [hC] at hh
    have h2 : TraceExtends s s2 := by
      have hh := createLabel_extends s1; rw [hL1] at hh; exact trTrans h1 hh
    have h3 : TraceExtends s s3 := by
      have hh := createLabel_extends s2; rw [hL2] at hh; exact trTrans h2 hh
    have h4 : TraceExtends s s4 := by
      have hh := createLabel_extends s3; rw [hL3] at hh; exact trTrans h3 hh
    have h5 : TraceExtends s
        (genStmt thenB (emit { opcode := .LABEL, label := l1 }
          (emit { opcode := .JZ, operands := [cv], label := l2 } s4))) :=
      trTrans (trEmit _ (trEmit _ h4)) (genStmt_extends thenB _)
    exact trEmit _ (trEmit _ (trEmit _ h5))
  | .whileS cond body, s => by
    rw [genStmt_whileS]
    rcases hL1 : createLabel s with ⟨l1, s1⟩
    try dsimp only []
    rcases hL2 : createLabel s1 with ⟨l2, s2⟩
    try dsimp only []
    have h1 : TraceExtends s s1 := by
      have hh := createLabel_extends s; rwa [hL1] at hh
    have h2 : TraceExtends s s2 := by
      have hh := createLabel_extends s1; rw [hL2] at hh; exact trTrans h1 hh
    rcases hC : genExpr cond (emit { opcode := .LABEL, label := l1 } s2)
      with ⟨cv, s3⟩
    try dsimp only []
    have h3 : TraceExtends s s3 := by
      have hh := genExpr_extends cond (emit { opcode := .LABEL, label := l1 } s2)
      rw [hC] at hh
      exact trTrans (trEmit _ h2) hh
    have h4 : TraceExtends s
        (genStmt body (emit { opcode := .JZ, operands := [cv], label := l2 } s3)) :=
      trTrans (trEmit _ h3) (genStmt_extends body _)
    exact trEmit _ (trEmit _ h4)
  | .forS (some i) cond incr body, s => by
    rw [genStmt_forS_some]
    try dsimp only []
    have h0 : TraceExtends s (genStmt i s) := genStmt_extends i s
    rcases hL1 : createLabel (genStmt i s) with ⟨l1, s1⟩
    try dsimp only []
    have h1 : TraceExtends s s1 := by
      have hh := createLabel_extends (genStmt i s)
      rw [hL1] at hh; exact trTrans h0 hh
    rcases hL2 : createLabel s1 with ⟨l2, s2⟩
    try dsimp only []
    have h2 : TraceExtends s s2 := by
      have hh := createLabel_extends s1; rw [hL2] at hh; exact trTrans h1 hh
    have h3 : TraceExtends s (emit { opcode := .LABEL, label := l1 } s2) :=
      trEmit _ h2
    cases cond with
    | some c =>
      try dsimp only []
      rcases hC : genExpr c (emit { opcode := .LABEL, label := l1 } s2)
        with ⟨cv, s3⟩
      try dsimp only []
      have h4 : TraceExtends s
          (emit { opcode := .JZ, operands := [cv], label := l2 } s3) := by
        have hh := genExpr_extends c (emit { opcode := .LABEL, label := l1 } s2)
        rw [hC] at hh
        exact trEmit _ (trTrans h3 hh)
      have h5 : TraceExtends s
          (genStmt body (emit { opcode := .JZ, operands := [cv], label := l2 } s3)) :=
        trTrans h4 (genStmt_extends body _)
      cases incr with
      | some e =>
        try dsimp only []
        exact trEmit _ (trEmit _ (trTrans h5 (genExpr_extends e _)))
      | none =>
        try dsimp only []
        exact trEmit _ (trEmit _ h5)
    | none =>
      try dsimp only []
      have h5 : TraceExtends s
          (genStmt body (emit { opcode := .LABEL, label := l1 } s2)) :=
        trTrans h3 (genStmt_extends body _)
      cases incr with
      | some e =>
        try dsimp only []
        exact trEmit _ (trEmit _ (trTrans h5 (genExpr_extends e _)))
      | none =>
        try dsimp only []
        exact trEmit _ (trEmit _ h5)
  | .forS none cond incr body, s => by
    rw [genStmt_forS_none]
    rcases hL1 : createLabel s with ⟨l1, s1⟩
    try dsimp only []
    have h1 : TraceExtends s s1 := by
      have hh := createLabel_extends s; rwa [hL1] at hh
    rcases hL2 : createLabel s1 with ⟨l2, s2⟩
    try dsimp only []
    have h2 : TraceExtends s s2 := by
      have hh := createLabel_extends s1; rw [hL2] at hh; exact trTrans h1 hh
    have h3 : TraceExtends s (emit { opcode := .LABEL, label := l1 } s2) :=
      trEmit _ h2
    cases cond with
    | some c =>
      try dsimp only []
      rcases hC : genExpr c (emit { opcode := .LABEL, label := l1 } s2)
        with ⟨cv, s3⟩
      try dsimp only []
      have h4 : TraceExtends s
          (emit { opcode := .JZ, operands := [cv], label := l2 } s3) := by
        have hh := genExpr_extends c (emit { opcode := .LABEL, label := l1 } s2)
        rw [hC] at hh
        exact trEmit _ (trTrans h3 hh)
      have h5 : TraceExtends s
          (genStmt body (emit { opcode := .JZ, operands := [cv], label := l2 } s3)) :=
        trTrans h4 (genStmt_extends body _)
      cases incr with
      | some e =>
        try dsimp only []
        exact trEmit _ (trEmit _ (trTrans h5 (genExpr_extends e _)))
      | none =>
        try dsimp only []
        exact trEmit _ (trEmit _ h5)
    | none =>
      try dsimp only []
      have h5 : TraceExtends s
          (genStmt body (emit { opcode := .LABEL, label := l1 } s2)) :=
        trTrans h3 (genStmt_extends body _)
      cases incr with
      | some e =>
        try dsimp only []
        exact trEmit _ (trEmit _ (trTrans h5 (genExpr_extends e _)))
      | none =>
        try dsimp only []
        exact trEmit _ (trEmit _ h5)
  | .varDecl name ty init, s => by
    rw [genStmt_varDecl]
    cases init with
    | none =>
      try dsimp only []
      exact trSym _ (trRefl s)
    | some e =>
      try dsimp only []
      rcases hE : genExpr e { s with symbolTable := setAssoc s.symbolTable name { ty := .LOCAL, name := name } } with ⟨v, s1⟩
      try dsimp only []
      have h1 : TraceExtends s s1 := by
        have hh := genExpr_extends e { s with symbolTable := setAssoc s.symbolTable name { ty := .LOCAL, name := name } }
        rw [hE] at hh
        exact trTrans (trSym _ (trRefl s)) hh
      exact trEmit _ h1
  | .exprStmt e, s => by
    rw [genStmt_exprStmt]
    exact genExpr_extends e s
  | .printStmt e, s => by
    rw [genStmt_printStmt]
    rcases hE : genExpr e s with ⟨v, s1⟩
    try dsimp only []
    have h1 : TraceExtends s s1 := by
      have hh := genExpr_extends e s; rwa [hE] at hh
    exact trEmit _ h1

theorem genStmtList_extends :
    ∀ (sts : List Stmt) (s : GSt), TraceExtends s (genStmtList sts s)
  | [], s => trRefl s
  | st :: sts, s => by
    rw [genStmtList_cons]
    exact trTrans (genStmt_extends st s) (genStmtList_extends sts (genStmt st s))

end

/-- The parameter-registration fold of `visitFunction` touches only the
symbol table. -/
theorem foldParams_extends (ps : List (Str × Str)) (s : GSt) :
    TraceExtends s (ps.foldl
      (fun s p => { s with symbolTable := setAssoc s.symbolTable p.snd ⟨.LOCAL, p.snd, -1⟩ }) s) := by
  induction ps generalizing s with
  | nil => exact trRefl s
  | cons p ps ih =>
    rw [List.foldl_cons]
    exact trTrans (trSym _ (trRefl s)) (ih _)

/-- `visitFunction` resets the temp counter to 0 before lowering the body, so
the temps it allocates are exactly `0, 1, …, tempCounter-1` of the outgoing
state; the label counter is *not* reset, so the labels it allocates continue
from the incoming `labelCounter`. -/
theorem visitFunction_trace (f : FunctionDecl) (s : GSt) :
    ((visitFunction f s).tempTrace =
        s.tempTrace ++ List.range (visitFunction f s).tempCounter)
    ∧ (∃ m, (visitFunction f s).labelCounter = s.labelCounter + m
        ∧ (visitFunction f s).labelTrace =
            s.labelTrace ++ List.range' s.labelCounter m) := by
  have hA := foldParams_extends f.parameters
    { s with cur := [], symbolTable := [], tempCounter := 0 }
  obtain ⟨k2, m2, hk2, ht2, hm2, hl2⟩ := hA
  have hB := genStmt_extends f.body (f.parameters.foldl
    (fun s p => { s with symbolTable := setAssoc s.symbolTable p.snd ⟨.LOCAL, p.snd, -1⟩ })
    { s with cur := [], symbolTable := [], tempCounter := 0 })
  obtain ⟨k3, m3, hk3, ht3, hm3, hl3⟩ := hB
  have hTC : (visitFunction f s).tempCounter = k2 + k3 := by
    show (genStmt f.body _).tempCounter = k2 + k3
    rw [hk3, hk2]
    show 0 + k2 + k3 = k2 + k3
    omega
  constructor
  · rw [hTC]
    show (genStmt f.body _).tempTrace = s.tempTrace ++ List.range (k2 + k3)
    rw [ht3, ht2, hk2]
    show s.tempTrace ++ List.range' 0 k2 ++ List.range' (0 + k2) k3
        = s.tempTrace ++ List.range (k2 + k3)
    rw [List.append_assoc, List.range_eq_range', range'_split 0 k2 k3]
  · refine ⟨m2 + m3, ?_, ?_⟩
    · show (genStmt f.body _).labelCounter = s.labelCounter + (m2 + m3)
      rw [hm3, hm2]
      show s.labelCounter + m2 + m3 = s.labelCounter + (m2 + m3)
      omega
    · show (genStmt f.body _).labelTrace
          = s.labelTrace ++ List.range' s.labelCounter (m2 + m3)
      rw [hl3, hl2, hm2]
      show s.labelTrace ++ List.range' s.labelCounter m2
            ++ List.range' (s.labelCounter + m2) m3
          = s.labelTrace ++ List.range' s.labelCounter (m2 + m3)
      rw [List.append_assoc, range'_split s.labelCounter m2 m3]

/-- Over a whole program, the labels allocated are globally consecutive: the
label trace of the final generator state is `0, 1, …, labelCounter-1`. -/
theorem visitProgram_labelTrace (fs : List FunctionDecl) :
    ∀ s : GSt, s.labelTrace = List.range s.labelCounter →
      (visitProgram fs s).labelTrace = List.range (visitProgram fs s).labelCounter := by
  induction fs with
  | nil => exact fun s h => h
  | cons f fs ih =>
    intro s h
    show (visitProgram fs (visitFunction f s)).labelTrace
        = List.range (visitProgram fs (visitFunction f s)).labelCounter
    apply ih
    obtain ⟨m, hm, hl⟩ := (visitFunction_trace f s).2
    rw [hl, hm, h, List.range_eq_range', List.range_eq_range',
      range'_split 0 s.labelCounter m]
    simp

theorem generateSt_labelTrace (p : Program) :
    (generateSt p).labelTrace = List.range (generateSt p).labelCounter :=
  visitProgram_labelTrace p.functions {} rfl

end IRGen

/-! ### Claim C6 -/

/-- A two-function program, each function containing one `while` loop
(`void f() { while (1) {} }  void g() { while (1) {} }`), used to exhibit
the label numbering across functions. -/
def twoFnProg : Program :=
  ⟨[⟨"void".toList, "f".toList, [],
      .block [.whileS (.lit .INTEGER "1".toList) (.block [])]⟩,
    ⟨"void".toList, "g".toList, [],
      .block [.whileS (.lit .INTEGER "1".toList) (.block [])]⟩]⟩

/-- Claim C6, counterexample to the label half: generating IR for a program
with two functions, each containing one `while` loop, gives a first function
whose LABEL instructions are `L0`/`L1` but a second function whose LABEL
instructions are `L2`/`L3` — the label counter carries over instead of
restarting from `L0`.  (The temp half is correct: both functions load their
loop condition into `t0`.) -/
theorem claim_C6_counterexample :
    ((IRGen.generate twoFnProg).functions.map
        (fun f => f.instructions.filterMap
          (fun i => if i.opcode = .LABEL then some i.label else none))
      = [["L0".toList, "L1".toList], ["L2".toList, "L3".toList]])
    ∧ ((IRGen.generate twoFnProg).functions.map
        (fun f => f.instructions.filterMap
          (fun i => if i.opcode = .LOAD_INT then some i.result.name else none))
      = [["t0".toList], ["t0".toList]]) := by
  constructor <;> rfl

/-- Claim C6, corrected: of the two per-function counters, only the temp
counter resets at each function.  (1) `visitFunction` allocates temps densely
ascending from `t0`: the temp-allocation trace it appends is exactly
`0, …, tempCounter-1`.  (2) The labels allocated by `visitFunction` continue
from the incoming label counter, which is never reset.  (3) Consequently, over
a whole program the allocated labels are `L0, L1, …` numbered consecutively in
generation order across all functions rather than restarting per function. -/
theorem claim_C6 :
    (∀ (f : FunctionDecl) (s : IRGen.GSt),
        (IRGen.visitFunction f s).tempTrace =
          s.tempTrace ++ List.range (IRGen.visitFunction f s).tempCounter)
    ∧ (∀ (f : FunctionDecl) (s : IRGen.GSt),
        ∃ m, (IRGen.visitFunction f s).labelCounter = s.labelCounter + m
          ∧ (IRGen.visitFunction f s).labelTrace =
              s.labelTrace ++ List.range' s.labelCounter m)
    ∧ (∀ p : Program,
        (IRGen.generateSt p).labelTrace =
          List.range (IRGen.generateSt p).labelCounter) :=
  ⟨fun f s => (IRGen.visitFunction_trace f s).1,
   fun f s => (IRGen.visitFunction_trace f s).2,
   IRGen.generateSt_labelTrace⟩

/-! ### The integer coercion `toInt` (claim C5)

`std::to_string` of an int is `natToStr`/`intToStr` (`Nat.toDigits 10`); the
lemmas below prove the decimal round-trip `stoi (intToStr n) = n` and the
trunc-toward-zero characterisation of the float case. -/

/-- A decimal digit character is not whitespace. -/
theorem digit_not_space (c : Char) (h : isDigitC c = true) : isSpaceC c = false := by
  by_contra hs
  simp only [Bool.not_eq_false] at hs
  simp only [isSpaceC, Bool.or_eq_true, decide_eq_true_eq] at hs
  rcases hs with ((((h1 | h1) | h1) | h1) | h1) | h1 <;>
    (subst h1; exact absurd h (by decide))

theorem digitChar_toNat (m : Nat) (h : m < 10) :
    (Nat.digitChar m).toNat - '0'.toNat = m := by
  interval_cases m <;> decide

theorem digitChar_isDigit (m : Nat) (h : m < 10) :
    isDigitC (Nat.digitChar m) = true := by
  interval_cases m <;> decide

theorem toDigitsCore_append :
    ∀ (fuel n : Nat) (ds : List Char),
      Nat.toDigitsCore 10 fuel n ds = Nat.toDigitsCore 10 fuel n [] ++ ds := by
  intro fuel
  induction fuel with
  | zero => intro n ds; rfl
  | succ fuel ih =>
    intro n ds
    simp only [Nat.toDigitsCore]
    by_cases h0 : n / 10 = 0
    · rw [if_pos h0, if_pos h0]
      rfl
    · rw [if_neg h0, if_neg h0]
      rw [ih (n / 10) (Nat.digitChar (n % 10) :: ds),
        ih (n / 10) [Nat.digitChar (n % 10)]]
      simp

theorem toDigitsCore_val :
    ∀ (fuel n : Nat), n < 10 ^ fuel →
      (Nat.toDigitsCore 10 fuel n []).foldl
        (fun acc ch => acc * 10 + (ch.toNat - '0'.toNat)) 0 = n := by
  intro fuel
  induction fuel with
  | zero =>
    intro n h
    have hn : n = 0 := by simpa using h
    subst hn
    rfl
  | succ fuel ih =>
    intro n h
    simp only [Nat.toDigitsCore]
    by_cases h0 : n / 10 = 0
    · rw [if_pos h0]
      have hn : n < 10 := by omega
      have hm : n % 10 = n := by omega
      simp only [List.foldl]
      rw [hm, digitChar_toNat n hn]
      omega
    · rw [if_neg h0]
      rw [toDigitsCore_append fuel (n / 10) [Nat.digitChar (n % 10)]]
      rw [List.foldl_append]
      have hd : n / 10 < 10 ^ fuel := by
        have hp : (10 : Nat) ^ (fuel + 1) = 10 ^ fuel * 10 := by rw [pow_succ]
        omega
      rw [ih (n / 10) hd]
      simp only [List.foldl]
      rw [digitChar_toNat (n % 10) (by omega)]
      omega

theorem toDigitsCore_digits :
    ∀ (fuel n : Nat), ∀ c ∈ Nat.toDigitsCore 10 fuel n [], isDigitC c = true := by
  intro fuel
  induction fuel with
  | zero => intro n c hc; simp [Nat.toDigitsCore] at hc
  | succ fuel ih =>
    intro n c hc
    simp only [Nat.toDigitsCore] at hc
    by_cases h0 : n / 10 = 0
    · rw [if_pos h0] at hc
      simp only [List.mem_singleton] at hc
      subst hc
      exact digitChar_isDigit (n % 10) (by omega)
    · rw [if_neg h0] at hc
      rw [toDigitsCore_append fuel (n / 10) [Nat.digitChar (n % 10)]] at hc
      rcases List.mem_append.mp hc with hc | hc
      · exact ih (n / 10) c hc
      · simp only [List.mem_singleton] at hc
        subst hc
        exact digitChar_isDigit (n % 10) (by omega)

theorem natToStr_digits (n : Nat) : ∀ c ∈ natToStr n, isDigitC c = true :=
  toDigitsCore_digits (n + 1) n

theorem natToStr_val (n : Nat) :
    (natToStr n).foldl (fun acc ch => acc * 10 + (ch.toNat - '0'.toNat)) 0 = n := by
  have h1 : n < 10 ^ n := Nat.lt_pow_self (by norm_num) n
  have h2 : (10 : Nat) ^ n ≤ 10 ^ (n + 1) :=
    Nat.pow_le_pow_right (by norm_num) (Nat.le_succ n)
  exact toDigitsCore_val (n + 1) n (by omega)

theorem natToStr_ne_nil (n : Nat) : natToStr n ≠ [] := by
  show Nat.toDigitsCore 10 (n + 1) n [] ≠ []
  simp only [Nat.toDigitsCore]
  by_cases h0 : n / 10 = 0
  · rw [if_pos h0]; simp
  · rw [if_neg h0]
    rw [toDigitsCore_append n (n / 10) [Nat.digitChar (n % 10)]]
    simp

namespace Interp

/-- Reduction of the sign-test match of `stoi`/`stod` when the head is
neither sign character. -/
theorem signMatch_default (c : Char) (cs : List Char) (h1 : c ≠ '-')
    (h2 : c ≠ '+') (t : Str) :
    (match (c :: cs : Str) with
     | '-' :: rest => ((true : Bool), rest)
     | '+' :: rest => ((false : Bool), rest)
     | x => ((false : Bool), t)) = ((false : Bool), t) := by
  split
  · rename_i rest heq
    simp_all
  · rename_i rest heq
    simp_all
  · rfl

/-- Reduction of the sign-test match of `stoi`/`stod` on a leading minus. -/
theorem signMatch_minus (cs : List Char) (t : Str) :
    (match ('-' :: cs : Str) with
     | '-' :: rest => ((true : Bool), rest)
     | '+' :: rest => ((false : Bool), rest)
     | x => ((false : Bool), t)) = ((true : Bool), cs) := by
  split
  · rename_i rest heq
    simp_all
  · rename_i rest heq
    simp_all
  · rename_i h3 h4
    exact absurd rfl (h3 cs)

/-- `stoi` on an all-digit string consumes all of it and returns its value. -/
theorem stoi_digits (s : Str) (hne : s ≠ [])
    (hd : ∀ c ∈ s, isDigitC c = true) :
    stoi s =
      .ok ((s.foldl (fun acc ch => acc * 10 + (ch.toNat - '0'.toNat)) 0 : Nat) : Int) := by
  obtain ⟨c, cs, rfl⟩ : ∃ c cs, s = c :: cs := by
    cases s with
    | nil => exact absurd rfl hne
    | cons c cs => exact ⟨c, cs, rfl⟩
  have hc : isDigitC c = true := hd c (List.mem_cons_self c cs)
  have h1 : c ≠ '-' := by rintro rfl; exact absurd hc (by decide)
  have h2 : c ≠ '+' := by rintro rfl; exact absurd hc (by decide)
  have hdrop : (c :: cs).dropWhile (fun ch => isSpaceC ch) = c :: cs := by
    rw [List.dropWhile_cons_of_neg]
    simp [digit_not_space c hc]
  have htake : (c :: cs).takeWhile (fun ch => isDigitC ch) = c :: cs :=
    List.takeWhile_eq_self_iff.mpr (fun x hx => by simpa using hd x hx)
  unfold stoi
  rw [hdrop]
  dsimp only []
  rw [signMatch_default c cs h1 h2 (c :: cs)]
  dsimp only []
  rw [htake, if_neg hne]
  rfl

/-- `stoi` on a minus sign followed by digits. -/
theorem stoi_neg_digits (s : Str) (hne : s ≠ [])
    (hd : ∀ c ∈ s, isDigitC c = true) :
    stoi ('-' :: s) =
      .ok (-((s.foldl (fun acc ch => acc * 10 + (ch.toNat - '0'.toNat)) 0 : Nat) : Int)) := by
  have htake : s.takeWhile (fun ch => isDigitC ch) = s :=
    List.takeWhile_eq_self_iff.mpr (fun x hx => by simpa using hd x hx)
  unfold stoi
  rw [List.dropWhile_cons_of_neg (by decide)]
  dsimp only []
  rw [signMatch_minus s ('-' :: s)]
  dsimp only []
  rw [htake, if_neg hne]
  rfl

theorem stoi_natToStr (m : Nat) : stoi (natToStr m) = .ok (m : Int) := by
  rw [stoi_digits (natToStr m) (natToStr_ne_nil m) (natToStr_digits m),
    natToStr_val m]

theorem stoi_neg_natToStr (m : Nat) :
    stoi ('-' :: natToStr m) = .ok (-(m : Int)) := by
  rw [stoi_neg_digits (natToStr m) (natToStr_ne_nil m) (natToStr_digits m),
    natToStr_val m]

/-- `stoi` round-trips the decimal rendering of every integer. -/
theorem stoi_intToStr (n : Int) : stoi (intToStr n) = .ok n := by
  unfold intToStr
  by_cases h : n < 0
  · rw [if_pos h, stoi_neg_natToStr n.natAbs]
    exact congrArg _ (by omega)
  · rw [if_neg h, stoi_natToStr n.natAbs]
    exact congrArg _ (by omega)

/-- Batteries' `Rat.floor` is Mathlib's `⌊·⌋`. -/
theorem ratFloor_eq_intFloor (q : Rat) : q.floor = ⌊q⌋ :=
  (Rat.floor_def' q).trans Rat.floor_def.symm

/-- Batteries' `Rat.ceil` is Mathlib's `⌈·⌉`. -/
theorem ratCeil_eq_intCeil (q : Rat) : q.ceil = ⌈q⌉ := by
  unfold Rat.ceil
  by_cases hden : q.den = 1
  · rw [if_pos hden]
    have hq : ((q.num : Rat)) = q := by
      have h := Rat.num_div_den q
      rwa [hden, Nat.cast_one, div_one] at h
    rw [← hq]
    exact (Int.ceil_intCast q.num).symm
  · rw [if_neg hden]
    have hfl : q.num / (q.den : Int) = ⌊q⌋ := Rat.floor_def.symm
    rw [hfl]
    have hne2 : ((⌊q⌋ : Rat)) ≠ q := by
      intro he
      exact hden (by rw [← he]; exact Rat.den_intCast ⌊q⌋)
    have h1 : ((⌊q⌋ : Rat)) < q := lt_of_le_of_ne (Int.floor_le q) hne2
    have h2 : q < ((⌊q⌋ : Rat)) + 1 := Int.lt_floor_add_one q
    symm
    rw [Int.ceil_eq_iff]
    constructor
    · push_cast
      linarith
    · push_cast
      linarith

end Interp

/-! ### Claim C5 -/

/-- Claim C5, counterexample: a boolean runtime value is *not* converted to
0/1 — the interpreter's `toInt` lambda falls through the three
`holds_alternative` checks and raises `Cannot convert to int` for both
`true` and `false`. -/
theorem claim_C5_counterexample :
    Interp.toInt (.bool true) = .error "Cannot convert to int".toList
    ∧ Interp.toInt (.bool false) = .error "Cannot convert to int".toList :=
  ⟨rfl, rfl⟩

/-- Claim C5, corrected: the arithmetic `toInt` lambda (1) leaves integers
unchanged; (2) truncates floats toward zero — the result `n` satisfies
`n ≤ f < n+1` for `0 ≤ f` and `f ≤ n < f+1` for `f < 0`, with the sign of
`f`; (3) parses strings as signed decimal — it round-trips the decimal
rendering of every integer, negative ones included; but (4) a boolean does
*not* become 0/1: `toInt` raises `Cannot convert to int`, so a parse failure
is not the only raising case. -/
theorem claim_C5 :
    (∀ i : Int, Interp.toInt (.int i) = .ok i)
    ∧ (∀ f : Rat, ∃ n : Int, Interp.toInt (.float f) = .ok n
        ∧ (0 ≤ f → ((n : Rat) ≤ f ∧ f < (n : Rat) + 1 ∧ 0 ≤ n))
        ∧ (f < 0 → (f ≤ (n : Rat) ∧ (n : Rat) < f + 1 ∧ n ≤ 0)))
    ∧ (∀ n : Int, Interp.toInt (.str (intToStr n)) = .ok n)
    ∧ (∀ b : Bool, Interp.toInt (.bool b) = .error "Cannot convert to int".toList) := by
  refine ⟨fun i => rfl, ?_, ?_, fun b => rfl⟩
  · intro f
    refine ⟨Interp.truncRat f, rfl, ?_, ?_⟩
    · intro hf
      unfold Interp.truncRat
      rw [if_pos hf, Interp.ratFloor_eq_intFloor]
      exact ⟨Int.floor_le f, Int.lt_floor_add_one f, Int.floor_nonneg.mpr hf⟩
    · intro hf
      unfold Interp.truncRat
      rw [if_neg (not_le.mpr hf), Interp.ratCeil_eq_intCeil]
      exact ⟨Int.le_ceil f, Int.ceil_lt_add_one f,
        Int.ceil_le.mpr (by push_cast; exact hf.le)⟩
  · intro n
    show Interp.stoi (intToStr n) = .ok n
    exact Interp.stoi_intToStr n

/-- Witness for claim C5 at concrete inputs: `toInt` keeps the integer `7`,
truncates `5/2` to a value in `[… , …)` per the theorem, round-trips `-42`,
and raises on `true`. -/
theorem claim_C5_witness :
    Interp.toInt (.int 7) = .ok 7
    ∧ (∃ n : Int, Interp.toInt (.float (5 / 2 : Rat)) = .ok n
        ∧ ((n : Rat) ≤ (5 / 2 : Rat) ∧ (5 / 2 : Rat) < (n : Rat) + 1 ∧ 0 ≤ n))
    ∧ Interp.toInt (.str (intToStr (-42))) = .ok (-42)
    ∧ Interp.toInt (.bool true) = .error "Cannot convert to int".toList := by
  refine ⟨claim_C5.1 7, ?_, claim_C5.2.2.1 (-42), claim_C5.2.2.2 true⟩
  obtain ⟨n, h1, h2, h3⟩ := claim_C5.2.1 (5 / 2 : Rat)
  exact ⟨n, h1, h2 (by norm_num)⟩

/-! ### Lexer round-trip (claim C8)

The round-trip of claim C8 fails for string literals (`readString` strips the
quotes), but holds for words lexed as numbers (integer or float), identifiers
or keywords, and operator/delimiter tokens — including the lone `&`/`|`
UNKNOWN tokens, whose extra consumed character is exactly the separating
space.  The definitions below classify such words; the lemmas prove that
`nextToken` consumes exactly one space-delimited word and reproduces it as
the token value. -/

namespace Lexer

/-- A number word: a digit-headed run of digits and dots, lexed by
`readNumber` as one INTEGER or FLOAT token whose value is the whole run. -/
def numWord (w : Str) : Bool :=
  match w with
  | [] => false
  | c :: _ => isDigitC c && w.all (fun ch => isDigitC ch || ch = '.')

/-- An identifier/keyword word: a letter or underscore followed by
alphanumerics/underscores (lexed by `readIdentifierOrKeyword`). -/
def identWord (w : Str) : Bool :=
  match w with
  | [] => false
  | c :: _ => (isAlphaC c || c = '_') && w.all (fun ch => isAlnumC ch || ch = '_')

/-- The operator/delimiter words recognized by `readOperatorOrDelimiter`
as a single token whose value round-trips: the one- and two-character
operators and delimiters, and the lone `&`/`|` (which lex as UNKNOWN with
value `&`/`|` and additionally consume the following character — exactly
the separating space). -/
def opWords : List Str :=
  [ "+".toList, "-".toList, "*".toList, "/".toList, "%".toList,
    "=".toList, "==".toList, "!".toList, "!=".toList,
    "<".toList, "<=".toList, ">".toList, ">=".toList,
    "&&".toList, "||".toList, "&".toList, "|".toList,
    "(".toList, ")".toList, "[".toList, "]".toList,
    ";".toList, ",".toList, ".".toList, ":".toList,
    ['\x7b'], ['\x7d'] ]

/-- An operator/delimiter word. -/
def opWord (w : Str) : Bool := opWords.contains w

/-- Words covered by the corrected round-trip statement: numbers (integer
and float), identifiers/keywords, and operator/delimiter tokens. -/
def wordOk (w : Str) : Bool := numWord w || identWord w || opWord w

/-- The words separated by single spaces (`w₁ ⬝ ' ' ⬝ w₂ ⬝ ' ' ⬝ …`). -/
def joinSp : List Str → Str
  | [] => []
  | [w] => w
  | w :: ws => w ++ ' ' :: joinSp ws

/-- The token values with `NEWLINE` and `END_OF_FILE` tokens ignored. -/
def tokenValues (ts : List Token) : List Str :=
  ts.filterMap (fun t =>
    if t.ty = .NEWLINE ∨ t.ty = .END_OF_FILE then none else some t.value)

/-- A letter is not a decimal digit (the ASCII ranges are disjoint). -/
theorem alpha_not_digit (c : Char) (h : isAlphaC c = true) : isDigitC c = false := by
  by_contra hd
  simp only [Bool.not_eq_false] at hd
  simp only [isAlphaC, isDigitC, Bool.or_eq_true, Bool.and_eq_true,
    decide_eq_true_eq] at h hd
  rcases h with ⟨h1, h2⟩ | ⟨h1, h2⟩
  · exact absurd (le_trans h1 hd.2) (by decide)
  · exact absurd (le_trans h1 hd.2) (by decide)

/-- Head facts for a digit-headed word. -/
theorem digitHead_facts (c : Char) (h : isDigitC c = true) :
    isSpaceC c = false ∧ c ≠ '\n' ∧ c ≠ '/' ∧ c ≠ '"' ∧ c ≠ '\'' :=
  ⟨digit_not_space c h,
   by rintro rfl; exact absurd h (by decide),
   by rintro rfl; exact absurd h (by decide),
   by rintro rfl; exact absurd h (by decide),
   by rintro rfl; exact absurd h (by decide)⟩

/-- Head facts for an identifier-headed word. -/
theorem identHead_facts (c : Char) (h : (isAlphaC c || c = '_') = true) :
    isSpaceC c = false ∧ c ≠ '\n' ∧ c ≠ '/' ∧ isDigitC c = false
      ∧ c ≠ '"' ∧ c ≠ '\'' := by
  simp only [Bool.or_eq_true, decide_eq_true_eq] at h
  rcases h with h | rfl
  · refine ⟨?_, ?_, ?_, alpha_not_digit c h, ?_, ?_⟩
    · by_contra hs
      simp only [Bool.not_eq_false] at hs
      simp only [isSpaceC, Bool.or_eq_true, decide_eq_true_eq] at hs
      rcases hs with ((((h1 | h1) | h1) | h1) | h1) | h1 <;>
        (subst h1; exact absurd h (by decide))
    · rintro rfl; exact absurd h (by decide)
    · rintro rfl; exact absurd h (by decide)
    · rintro rfl; exact absurd h (by decide)
    · rintro rfl; exact absurd h (by decide)
  · exact ⟨by decide, by decide, by decide, by decide, by decide, by decide⟩

theorem skipWsAux_nonspace (ch : Char) (t : Str) (l c : Nat)
    (h : isSpaceC ch = false) :
    skipWsAux (ch :: t) l c = ⟨ch :: t, l, c⟩ := by
  simp [skipWsAux, h]

theorem isCommentStart_not_slash (ch : Char) (t : Str) (h : ch ≠ '/') :
    isCommentStart (ch :: t) = false := by
  unfold isCommentStart
  split
  · rename_i heq
    simp_all
  · rename_i heq
    simp_all
  · rfl

theorem ntLoop_stop (n : Nat) (cur : Cur) (h : isCommentStart cur.s = false) :
    ntLoop (n + 1) cur = cur := by
  simp [ntLoop, h]

/-- `readNumAux` consumes exactly a digit/dot run that is followed by a
non-digit, non-dot character (or end of input). -/
theorem readNumAux_split :
    ∀ (w : Str) (l c : Nat) (rest : Str),
      (∀ ch ∈ w, (isDigitC ch || ch = '.') = true) →
      (rest = [] ∨ ∃ d ds, rest = d :: ds ∧ (isDigitC d || d = '.') = false) →
      readNumAux (w ++ rest) l c = (w, ⟨rest, l, c + w.length⟩) := by
  intro w
  induction w with
  | nil =>
    intro l c rest hall hrest
    rcases hrest with rfl | ⟨d, ds, rfl, hd⟩
    · simp [readNumAux]
    · simp [readNumAux, hd]
  | cons ch cs ih =>
    intro l c rest hall hrest
    have hch : (isDigitC ch || ch = '.') = true := hall ch (List.mem_cons_self _ _)
    have hne : ch ≠ '\n' := by rintro rfl; exact absurd hch (by decide)
    rw [List.cons_append]
    simp only [readNumAux]
    rw [if_pos hch]
    simp only [advStep]
    rw [if_neg hne]
    dsimp only []
    rw [ih l (c + 1) rest (fun x hx => hall x (List.mem_cons_of_mem _ hx)) hrest]
    dsimp only []
    have harith : c + 1 + cs.length = c + (ch :: cs).length := by
      simp [List.length_cons]; omega
    rw [harith]

/-- `readIdentAux` consumes exactly an identifier run that is followed by a
non-identifier character (or end of input). -/
theorem readIdentAux_split :
    ∀ (w : Str) (l c : Nat) (rest : Str),
      (∀ ch ∈ w, (isAlnumC ch || ch = '_') = true) →
      (rest = [] ∨ ∃ d ds, rest = d :: ds ∧ (isAlnumC d || d = '_') = false) →
      readIdentAux (w ++ rest) l c = (w, ⟨rest, l, c + w.length⟩) := by
  intro w
  induction w with
  | nil =>
    intro l c rest hall hrest
    rcases hrest with rfl | ⟨d, ds, rfl, hd⟩
    · simp [readIdentAux]
    · simp [readIdentAux, hd]
  | cons ch cs ih =>
    intro l c rest hall hrest
    have hch : (isAlnumC ch || ch = '_') = true := hall ch (List.mem_cons_self _ _)
    have hne : ch ≠ '\n' := by
      rintro rfl
      exact absurd hch (by decide)
    rw [List.cons_append]
    simp only [readIdentAux]
    rw [if_pos hch]
    simp only [advStep]
    rw [if_neg hne]
    dsimp only []
    rw [ih l (c + 1) rest (fun x hx => hall x (List.mem_cons_of_mem _ hx)) hrest]
    dsimp only []
    have harith : c + 1 + cs.length = c + (ch :: cs).length := by
      simp [List.length_cons]; omega
    rw [harith]

/-- Every keyword-table entry is a "plain" token kind. -/
theorem keywords_plain :
    ∀ kv ∈ keywords, kv.snd ≠ TokenType.NEWLINE
      ∧ kv.snd ≠ TokenType.END_OF_FILE ∧ kv.snd ≠ TokenType.STRING := by
  decide

/-- `readIdentifierOrKeyword` on an identifier word followed by a delimiter
returns the word as the token value and stops at the delimiter. -/
theorem readIdent_word (w : Str)
    (hall : ∀ ch ∈ w, (isAlnumC ch || ch = '_') = true)
    (rest : Str)
    (hrest : rest = [] ∨ ∃ d ds, rest = d :: ds ∧ (isAlnumC d || d = '_') = false)
    (l c : Nat) :
    ∃ ty, readIdentifierOrKeyword ⟨w ++ rest, l, c⟩
        = (⟨ty, w, l, c⟩, ⟨rest, l, c + w.length⟩)
      ∧ ty ≠ .NEWLINE ∧ ty ≠ .END_OF_FILE ∧ ty ≠ .STRING := by
  unfold readIdentifierOrKeyword
  dsimp only []
  rw [readIdentAux_split w l c rest hall hrest]
  dsimp only []
  cases hf : keywords.find? (fun kv => kv.fst = w) with
  | none => exact ⟨.IDENTIFIER, rfl, by decide, by decide, by decide⟩
  | some kv =>
    have hmem : kv ∈ keywords := List.mem_of_find?_eq_some hf
    have hty := keywords_plain kv hmem
    exact ⟨kv.snd, rfl, hty.1, hty.2.1, hty.2.2⟩

/-- `nextToken` on a `wordOk` word followed by a space (or end of input)
returns one token whose value is the word.  The resulting cursor normally
rests on the delimiter; for the lone `&`/`|` fallthrough the separating
space itself is additionally consumed. -/
theorem nextToken_word (w : Str) (hw : wordOk w = true) (rest : Str)
    (hrest : rest = [] ∨ ∃ ds, rest = ' ' :: ds) (l c : Nat) :
    ∃ ty st', nextToken ⟨w ++ rest, l, c⟩ = (⟨ty, w, l, c⟩, st')
      ∧ ty ≠ .NEWLINE ∧ ty ≠ .END_OF_FILE ∧ ty ≠ .STRING
      ∧ (st' = ⟨rest, l, c + w.length⟩
         ∨ ∃ ds, rest = ' ' :: ds ∧ st' = ⟨ds, l, c + w.length + 1⟩) := by
  simp only [wordOk, Bool.or_eq_true] at hw
  rcases hw with (hnum | hid) | hop
  · -- number (digit-headed digit/dot run)
    obtain ⟨ch, cs, rfl⟩ : ∃ ch cs, w = ch :: cs := by
      cases w with
      | nil => simp [numWord] at hnum
      | cons a as => exact ⟨a, as, rfl⟩
    simp only [numWord, Bool.and_eq_true, List.all_eq_true] at hnum
    obtain ⟨hch, hall0⟩ := hnum
    have hall : ∀ x ∈ ch :: cs, (isDigitC x || x = '.') = true := fun x hx => by
      simpa using hall0 x hx
    obtain ⟨hsp, hnl, hsl, hq1, hq2⟩ := digitHead_facts ch hch
    have hstop : rest = [] ∨ ∃ d ds, rest = d :: ds ∧ (isDigitC d || d = '.') = false := by
      rcases hrest with rfl | ⟨ds, rfl⟩
      · exact Or.inl rfl
      · exact Or.inr ⟨' ', ds, rfl, by decide⟩
    unfold nextToken
    dsimp only [skipWhitespace]
    rw [List.cons_append]
    try dsimp only []
    rw [skipWsAux_nonspace ch (cs ++ rest) l c hsp]
    rw [ntLoop_stop _ _ (isCommentStart_not_slash ch (cs ++ rest) hsl)]
    dsimp only []
    rw [if_neg hnl, if_pos hch]
    unfold readNumber
    dsimp only []
    rw [← List.cons_append, readNumAux_split (ch :: cs) l c rest hall hstop]
    dsimp only []
    by_cases hcont : ((ch :: cs).contains '.') = true
    · rw [if_pos hcont]
      exact ⟨.FLOAT, _, rfl, by decide, by decide, by decide, Or.inl rfl⟩
    · rw [if_neg hcont]
      exact ⟨.INTEGER, _, rfl, by decide, by decide, by decide, Or.inl rfl⟩
  · -- identifier/keyword
    obtain ⟨ch, cs, rfl⟩ : ∃ ch cs, w = ch :: cs := by
      cases w with
      | nil => simp [identWord] at hid
      | cons a as => exact ⟨a, as, rfl⟩
    simp only [identWord, Bool.and_eq_true, List.all_eq_true] at hid
    obtain ⟨hhead, hall0⟩ := hid
    have hall : ∀ x ∈ ch :: cs, (isAlnumC x || x = '_') = true := fun x hx => by
      simpa using hall0 x hx
    obtain ⟨hsp, hnl, hsl, hdg, hq1, hq2⟩ := identHead_facts ch hhead
    have hstop : rest = [] ∨ ∃ d ds, rest = d :: ds ∧ (isAlnumC d || d = '_') = false := by
      rcases hrest with rfl | ⟨ds, rfl⟩
      · exact Or.inl rfl
      · exact Or.inr ⟨' ', ds, rfl, by decide⟩
    unfold nextToken
    dsimp only [skipWhitespace]
    rw [List.cons_append]
    try dsimp only []
    rw [skipWsAux_nonspace ch (cs ++ rest) l c hsp]
    rw [ntLoop_stop _ _ (isCommentStart_not_slash ch (cs ++ rest) hsl)]
    dsimp only []
    rw [if_neg hnl, if_neg (by simp [hdg]), if_neg (by simp [hq1, hq2]),
      if_pos hhead]
    rw [← List.cons_append]
    obtain ⟨ty, heq, h1, h2, h3⟩ := readIdent_word (ch :: cs) hall rest hstop l c
    exact ⟨ty, _, heq, h1, h2, h3, Or.inl rfl⟩
  · -- operator/delimiter
    simp only [opWord] at hop
    obtain ⟨x, hx, hbeq⟩ := List.contains_iff_exists_mem_beq.mp hop
    have hxe : w = x := eq_of_beq hbeq
    subst hxe
    unfold opWords at hx
    fin_cases hx <;> rcases hrest with rfl | ⟨ds, rfl⟩ <;>
      first
        | exact ⟨_, _, rfl, by decide, by decide, by decide, Or.inl rfl⟩
        | exact ⟨_, _, rfl, by decide, by decide, by decide, Or.inr ⟨_, rfl, rfl⟩⟩

/-- `nextToken` ignores a leading space (one step of `skipWhitespace`). -/
theorem nextToken_space (s : Str) (l c : Nat) :
    nextToken ⟨' ' :: s, l, c⟩ = nextToken ⟨s, l, c + 1⟩ := by
  unfold nextToken
  dsimp only [skipWhitespace]
  have h : skipWsAux (' ' :: s) l c = skipWsAux s l (c + 1) := by
    simp only [skipWsAux]
    rw [if_pos (by decide)]
    rfl
  rw [h]

theorem tokenizeF_space (fuel : Nat) (s : Str) (l c : Nat) :
    tokenizeF (fuel + 1) ⟨' ' :: s, l, c⟩ = tokenizeF (fuel + 1) ⟨s, l, c + 1⟩ := by
  simp only [tokenizeF]
  rw [nextToken_space]

/-- `tokenValues` keeps a non-NEWLINE, non-EOF token's value. -/
theorem tokenValues_cons_keep (t : Token) (ts : List Token)
    (h1 : t.ty ≠ .NEWLINE) (h2 : t.ty ≠ .END_OF_FILE) :
    tokenValues (t :: ts) = t.value :: tokenValues ts := by
  simp only [tokenValues, List.filterMap_cons]
  rw [if_neg (fun hor => hor.elim h1 h2)]

/-- A `wordOk` word is nonempty. -/
theorem wordOk_ne_nil (w : Str) (h : wordOk w = true) : w ≠ [] := by
  rintro rfl
  exact absurd h (by decide)

/-- Tokenizing space-joined `wordOk` words yields exactly those words as the
significant token values. -/
theorem tokenizeF_words :
    ∀ (ws : List Str) (l c fuel : Nat),
      (∀ w ∈ ws, wordOk w = true) →
      (joinSp ws).length + 1 ≤ fuel →
      tokenValues (tokenizeF fuel ⟨joinSp ws, l, c⟩) = ws := by
  intro ws
  induction ws with
  | nil =>
    intro l c fuel h hf
    obtain ⟨f, rfl⟩ : ∃ f, fuel = f + 1 := ⟨fuel - 1, by omega⟩
    rfl
  | cons w ws ih =>
    intro l c fuel hok hf
    have hw : wordOk w = true := hok w (List.mem_cons_self _ _)
    have hwne : w ≠ [] := wordOk_ne_nil w hw
    have hwlen : 1 ≤ w.length := by
      cases w with
      | nil => exact absurd rfl hwne
      | cons a as => simp
    cases ws with
    | nil =>
      obtain ⟨f, rfl⟩ : ∃ f, fuel = f + 1 := ⟨fuel - 1, by omega⟩
      have hf2 : w.length + 1 ≤ f + 1 := by
        simpa [joinSp] using hf
      obtain ⟨ty, st', hnt, hty1, hty2, hty3, hdisj⟩ :=
        nextToken_word w hw [] (Or.inl rfl) l c
      have hst2 : st' = ⟨[], l, c + w.length⟩ := by
        rcases hdisj with h | ⟨ds, hds, h2⟩
        · exact h
        · exact absurd hds (by simp)
      subst hst2
      show tokenValues (tokenizeF (f + 1) ⟨w, l, c⟩) = [w]
      conv_lhs => rw [show (w : Str) = w ++ [] from (List.append_nil w).symm]
      simp only [tokenizeF]
      rw [hnt]
      dsimp only []
      rw [if_neg hty2]
      obtain ⟨f2, rfl⟩ : ∃ f2, f = f2 + 1 := ⟨f - 1, by omega⟩
      have hbase : tokenizeF (f2 + 1) ⟨[], l, c + w.length⟩
          = [⟨.END_OF_FILE, [], l, c + w.length⟩] := rfl
      rw [hbase, tokenValues_cons_keep _ _ hty1 hty2]
      rfl
    | cons w2 ws2 =>
      have hjoin : joinSp (w :: w2 :: ws2) = w ++ ' ' :: joinSp (w2 :: ws2) := rfl
      have hlen : (joinSp (w :: w2 :: ws2)).length
          = w.length + (joinSp (w2 :: ws2)).length + 1 := by
        rw [hjoin]; simp [List.length_append]; omega
      obtain ⟨f, rfl⟩ : ∃ f, fuel = f + 1 := ⟨fuel - 1, by omega⟩
      obtain ⟨ty, st', hnt, hty1, hty2, hty3, hdisj⟩ :=
        nextToken_word w hw (' ' :: joinSp (w2 :: ws2)) (Or.inr ⟨_, rfl⟩) l c
      show tokenValues (tokenizeF (f + 1) ⟨joinSp (w :: w2 :: ws2), l, c⟩)
          = w :: w2 :: ws2
      rw [hjoin]
      simp only [tokenizeF]
      rw [hnt]
      dsimp only []
      rw [if_neg hty2]
      rcases hdisj with rfl | ⟨ds, hds, rfl⟩
      · obtain ⟨f2, rfl⟩ : ∃ f2, f = f2 + 1 := ⟨f - 1, by omega⟩
        rw [tokenizeF_space f2 (joinSp (w2 :: ws2)) l (c + w.length)]
        have htail := ih l (c + w.length + 1) (f2 + 1)
          (fun x hx => hok x (List.mem_cons_of_mem _ hx)) (by omega)
        rw [tokenValues_cons_keep _ _ hty1 hty2, htail]
      · injection hds with hds1 hds2
        subst hds2
        have htail := ih l (c + w.length + 1) f
          (fun x hx => hok x (List.mem_cons_of_mem _ hx)) (by omega)
        rw [tokenValues_cons_keep _ _ hty1 hty2, htail]

end Lexer

/-! ### Claim C8 -/

/-- Claim C8, counterexample: for the input `"a"` (a string literal) the
lexer strips the quotes — the STRING token's value is `a`, so the values of
the significant tokens joined with spaces are `a`, not the original input
`"a"`.  The round-trip does not hold for string literals. -/
theorem claim_C8_counterexample :
    Lexer.tokenValues (Lexer.tokenize ['"', 'a', '"']) = [['a']]
    ∧ Lexer.joinSp (Lexer.tokenValues (Lexer.tokenize ['"', 'a', '"']))
        ≠ ['"', 'a', '"'] := by
  constructor <;> decide

/-- Claim C8, corrected: the space-separated round-trip holds for every word
that lexes as a number (integer or float: a digit-headed run of digits and
dots), an identifier or keyword, or an operator/delimiter token — including
the two-character operators and the lone `&`/`|` UNKNOWN tokens, whose extra
consumed character is exactly the separating space: for any list of such
words, the token values of `tokenize` of the space-joined input, ignoring
NEWLINE and END_OF_FILE, are exactly the words, so rejoining them with
single spaces reproduces the input.  It does not hold for every recognized
token kind: string literals break it because `readString` strips the
quotes. -/
theorem claim_C8 :
    ∀ ws : List Str, (∀ w ∈ ws, Lexer.wordOk w = true) →
      Lexer.tokenValues (Lexer.tokenize (Lexer.joinSp ws)) = ws
      ∧ Lexer.joinSp (Lexer.tokenValues (Lexer.tokenize (Lexer.joinSp ws)))
          = Lexer.joinSp ws := by
  intro ws h
  have hmain : Lexer.tokenValues (Lexer.tokenize (Lexer.joinSp ws)) = ws :=
    Lexer.tokenizeF_words ws 1 1 ((Lexer.joinSp ws).length + 1) h (le_refl _)
  exact ⟨hmain, by rw [hmain]⟩

/-- Witness for claim C8 on the concrete words `int`, `x7`, `3.14`, `==`,
`&`, `42` (a keyword, an identifier, a float, a two-char operator, a lone
`&` and an integer). -/
theorem claim_C8_witness :
    (∀ w ∈ [("int".toList : Str), "x7".toList, "3.14".toList, "==".toList,
        "&".toList, "42".toList], Lexer.wordOk w = true)
    ∧ Lexer.tokenValues
        (Lexer.tokenize (Lexer.joinSp ["int".toList, "x7".toList,
          "3.14".toList, "==".toList, "&".toList, "42".toList]))
        = ["int".toList, "x7".toList, "3.14".toList, "==".toList,
            "&".toList, "42".toList] :=
  ⟨by decide, (claim_C8 ["int".toList, "x7".toList, "3.14".toList,
    "==".toList, "&".toList, "42".toList] (by decide)).1⟩

end Zpp
